import Mathlib

/-! EKA2L1: the process view of the flexible memory model, the run-length coding, the HAL
dispatch and the time conversion.

Shallow embedding of `src/emu/epoc/src/mem/model/flexible/process.cpp`
(`flexible_mem_model_process`): `create_chunk`, `delete_chunk`, `attach_chunk`,
`detach_chunk`, `unmap_from_cpu`, `remap_to_cpu`.

Conventions of the embedding.

* An object address is a `Nat`.  A C++ pointer that may be null is an `Option Nat`
  (`none` is `nullptr`); a pointer that the code dereferences unconditionally is a
  plain `Nat`.
* The C++ objects live in one `system` value: the MMU (page size bits, chunk manager),
  the chunk descriptors, the memory objects and the processes, each addressed by `Nat`.
  A method of a process takes the system and the address `self` of the process
  (`this`) and returns its result together with the new system.
* Every call that `process.cpp` makes into another source file (chunk manager, chunk,
  mapping, memory object), the getters `id()` and `max()` apart, is appended to
  `system.log`, in program order, with its arguments.
* What those calls answer is supplied by a `collaborators` value, one per call of a
  process operation, so that nothing is assumed about the answers.
* `chunk->max() >> mmu_->page_size_bits_` is a shift of an unsigned size by a bit count
  below its width, so it is the shift of natural numbers.
-/

namespace eka2l1.mem

/-- Modelled from the spec: `mem_model_chunk_creation_info`, declared in a header that
`process.cpp` only includes; the spec names "creation parameters (size, flags, initial commit policy)".
`create_chunk` only forwards it to `do_create`. -/
structure mem_model_chunk_creation_info where
  size : Nat
  flags : Nat
  commit : Nat
deriving DecidableEq, Repr

namespace flexible

/-- The fields of `flexible_mem_model_chunk` that `process.cpp` reads or writes:
`owner_` (line 46), `max()` (line 101), `flags_` (line 101), `mem_obj_` (lines 110, 128)
and `fixed_` (lines 136, 145). -/
structure flexible_mem_model_chunk where
  owner_ : Option Nat
  max : Nat
  flags_ : Nat
  fixed_ : Bool
  mem_obj_ : Nat
deriving DecidableEq, Repr

/-- An attachment record, `flexible_mem_model_chunk_attach_info`: the chunk and the
`std::unique_ptr<mapping>` the record owns (`none` is an empty `unique_ptr`). -/
structure flexible_mem_model_chunk_attach_info where
  chunk_ : Nat
  map_ : Option Nat
deriving DecidableEq, Repr

/-- The calls of `process.cpp` into other source files, the getters apart. -/
inductive call where
  | new_chunk (id : Nat)
  | do_create (chunk : Nat) (create_info : mem_model_chunk_creation_info)
  | destroy (chunk : Nat)
  | make_mapping (map : Nat) (id : Nat)
  | instantiate (map : Nat) (page_count : Nat) (flags : Nat)
  | attach_mapping (mem_obj : Nat) (layout : Option Nat)
  | detach_mapping (mem_obj : Nat) (layout : Option Nat)
  | unmap_from_cpu (chunk : Nat) (pr : Nat)
  | map_to_cpu (chunk : Nat) (pr : Nat)
deriving DecidableEq, Repr

/-- Modelled from the spec: the memory object, which `process.cpp` only calls.  It
"holds an ordered set of back-references to its active Mappings"; a back-reference is a raw
`mapping *`, so it may be null. -/
structure memory_object where
  mappings_ : List (Option Nat)
deriving DecidableEq, Repr

/-- Modelled from the spec: `memory_object::attach_mapping`, "register the new Mapping with
the Chunk's Memory Object (so the object knows all its active mappings)"; the registrations
are an ordered set, so a pointer already registered is not added again. -/
def memory_object.attach_mapping (o : memory_object) (layout : Option Nat) : memory_object :=
  if layout ∈ o.mappings_ then o else { mappings_ := o.mappings_ ++ [layout] }

/-- Modelled from the spec: `memory_object::detach_mapping`, "unregister the Mapping from the
Chunk's Memory Object". -/
def memory_object.detach_mapping (o : memory_object) (layout : Option Nat) : memory_object :=
  { mappings_ := o.mappings_.erase layout }

/-- Modelled from the spec: the chunk manager, which `process.cpp` only calls (4.1):
a pool of `capacity` storage slots of which `live` are in use, so that "no two live Chunks
alias the same underlying storage slot". -/
structure chunk_manager where
  capacity : Nat
  live : List Nat
deriving DecidableEq, Repr

/-- Modelled from the spec: `chunk_manager::new_chunk`, "allocates ... a Chunk descriptor"
in a slot that no live chunk uses; "failure (allocation exhaustion) is reported" as a null
pointer. -/
def chunk_manager.new_chunk (m : chunk_manager) : Option Nat × chunk_manager :=
  match (List.range m.capacity).find? (fun s => !m.live.contains s) with
  | none => (none, m)
  | some s => (some s, { m with live := m.live ++ [s] })

/-- Modelled from the spec: `chunk_manager::destroy(chunk)` "releases it". -/
def chunk_manager.destroy (m : chunk_manager) (chunk : Nat) : chunk_manager :=
  { m with live := m.live.erase chunk }

/-- The process view `flexible_mem_model_process`: the identifier of the address space it
owns (`addr_space_->id()`) and its attachment list `attachs_`. -/
structure flexible_mem_model_process where
  addr_space_id : Nat
  attachs_ : List flexible_mem_model_chunk_attach_info
deriving DecidableEq, Repr

/-- All objects the process operations touch. `page_size_bits_` and `chunk_mngr_` are the
fields of the MMU (`mmu_`) shared by the processes. -/
structure system where
  page_size_bits_ : Nat
  chunk_mngr_ : chunk_manager
  chunks : Nat → flexible_mem_model_chunk
  mem_objs : Nat → memory_object
  procs : Nat → flexible_mem_model_process
  log : List call

/-- Answers of the code that `process.cpp` calls during one process operation:
the address `std::make_unique<mapping>` returns, the result of
`mapping::instantiate(page_count, flags)`, and the status and effect on the chunk
descriptor of `flexible_mem_model_chunk::do_create(create_info)`. -/
structure collaborators where
  make_mapping : Nat
  instantiate : Nat → Nat → Bool
  do_create : mem_model_chunk_creation_info → flexible_mem_model_chunk →
    Int × flexible_mem_model_chunk

/-- Pointwise replacement of the object stored at address `a`. -/
def store {α : Type} (f : Nat → α) (a : Nat) (v : α) : Nat → α :=
  fun x => if x = a then v else f x

/-- Modelled from the spec: a descriptor as `new_chunk` hands it out, "zero-initialized". -/
def zero_chunk : flexible_mem_model_chunk :=
  { owner_ := none, max := 0, flags_ := 0, fixed_ := false, mem_obj_ := 0 }

/-- The call `fl_mmu->chunk_mngr_->new_chunk(mmu_, addr_space_->id())` of line 38. -/
def new_chunk (w : system) (id : Nat) : Option Nat × system :=
  match w.chunk_mngr_.new_chunk with
  | (none, m) => (none, { w with chunk_mngr_ := m, log := w.log ++ [call.new_chunk id] })
  | (some c, m) =>
    (some c, { w with chunk_mngr_ := m, chunks := store w.chunks c zero_chunk,
                      log := w.log ++ [call.new_chunk id] })

/-- The call `fl_mmu->chunk_mngr_->destroy(chunk)` of lines 51, 59 and 73. -/
def destroy (w : system) (chunk : Nat) : system :=
  { w with chunk_mngr_ := w.chunk_mngr_.destroy chunk, log := w.log ++ [call.destroy chunk] }

/-- The call `mem_obj_->attach_mapping(layout)` of line 110. -/
def attach_mapping (w : system) (mem_obj : Nat) (layout : Option Nat) : system :=
  { w with mem_objs := store w.mem_objs mem_obj ((w.mem_objs mem_obj).attach_mapping layout),
           log := w.log ++ [call.attach_mapping mem_obj layout] }

/-- The call `mem_obj_->detach_mapping(layout)` of line 128. -/
def detach_mapping (w : system) (mem_obj : Nat) (layout : Option Nat) : system :=
  { w with mem_objs := store w.mem_objs mem_obj ((w.mem_objs mem_obj).detach_mapping layout),
           log := w.log ++ [call.detach_mapping mem_obj layout] }

/-- Replace the attachment list of process `self`. -/
def set_attachs (w : system) (self : Nat)
    (l : List flexible_mem_model_chunk_attach_info) : system :=
  { w with procs := store w.procs self { (w.procs self) with attachs_ := l } }

/-- The pair `std::move(attach_info)` leaves behind once the record has been move-constructed
from it (line 107): the record that now owns the mapping, and the local variable, whose
`unique_ptr` member `map_` is empty after the move. -/
def move_attach_info (attach_info : flexible_mem_model_chunk_attach_info) :
    flexible_mem_model_chunk_attach_info × flexible_mem_model_chunk_attach_info :=
  (attach_info, { attach_info with map_ := none })

/-- The first argument of `instantiate` on line 101: `chunk->max() >> mmu_->page_size_bits_`. -/
def attach_page_count (w : system) (chunk : Nat) : Nat :=
  (w.chunks chunk).max >>> w.page_size_bits_

/-- `flexible_mem_model_process::attach_chunk` (lines 81-113). -/
def attach_chunk (K : collaborators) (w : system) (self : Nat) (chunk : Nat) : Bool × system :=
  match (w.procs self).attachs_.find? (fun info => info.chunk_ == chunk) with
  | some _ => (false, w)
  | none =>
    let fl_chunk := w.chunks chunk
    let attach_info : flexible_mem_model_chunk_attach_info :=
      { chunk_ := chunk, map_ := some K.make_mapping }
    let w1 := { w with log := w.log ++
      [call.make_mapping K.make_mapping (w.procs self).addr_space_id,
       call.instantiate K.make_mapping (attach_page_count w chunk) fl_chunk.flags_] }
    if !K.instantiate (attach_page_count w chunk) fl_chunk.flags_ then
      (false, w1)
    else
      let moved := move_attach_info attach_info
      let w2 := set_attachs w1 self ((w1.procs self).attachs_ ++ [moved.1])
      let attach_info := moved.2
      (true, attach_mapping w2 fl_chunk.mem_obj_ attach_info.map_)

/-- `flexible_mem_model_process::detach_chunk` (lines 115-132). The chunk pointer is only
compared until a record with it is found, so it may be null; once a record is found, its
`chunk_` is the pointer (`detach_chunk_of_present`), which is how `fl_chunk` is read. -/
def detach_chunk (w : system) (self : Nat) (chunk : Option Nat) : Bool × system :=
  match (w.procs self).attachs_.find? (fun info => some info.chunk_ == chunk) with
  | none => (false, w)
  | some chunk_ite =>
    let fl_chunk := w.chunks chunk_ite.chunk_
    let w1 := detach_mapping w fl_chunk.mem_obj_ chunk_ite.map_
    (true, set_attachs w1 self
      ((w1.procs self).attachs_.eraseP (fun info => some info.chunk_ == chunk)))

/-- Lines 45-47 of `create_chunk`: `new_chunk_flexible->owner_ = this`, then
`new_chunk_flexible->do_create(create_info)`; the status `result` and the system after it. -/
def construct_chunk (K : collaborators) (w1 : system) (self : Nat) (new_chunk_flexible : Nat)
    (create_info : mem_model_chunk_creation_info) : Int × system :=
  let owned : flexible_mem_model_chunk :=
    { (w1.chunks new_chunk_flexible) with owner_ := some self }
  let w2 := { w1 with chunks := store w1.chunks new_chunk_flexible owned }
  let r := K.do_create create_info (w2.chunks new_chunk_flexible)
  (r.1, { w2 with chunks := store w2.chunks new_chunk_flexible r.2,
                  log := w2.log ++ [call.do_create new_chunk_flexible create_info] })

/-- `flexible_mem_model_process::create_chunk` (lines 34-66). The result is the status, the
value of the reference parameter `chunk` on return, and the new system. -/
def create_chunk (K : collaborators) (w : system) (self : Nat) (chunk : Option Nat)
    (create_info : mem_model_chunk_creation_info) : Int × Option Nat × system :=
  match new_chunk w (w.procs self).addr_space_id with
  | (none, w1) => (-1, chunk, w1)
  | (some new_chunk_flexible, w1) =>
    match construct_chunk K w1 self new_chunk_flexible create_info with
    | (result, w3) =>
      if result != 0 then
        (result, chunk, destroy w3 new_chunk_flexible)
      else
        match attach_chunk K w3 self new_chunk_flexible with
        | (false, w4) => (-1, chunk, destroy w4 new_chunk_flexible)
        | (true, w4) => (0, chunk, w4)

/-- `flexible_mem_model_process::delete_chunk` (lines 68-75). `detach_chunk` never succeeds
for a null pointer (see `detach_chunk_null`), so `destroy` always receives an address. -/
def delete_chunk (w : system) (self : Nat) (chunk : Option Nat) : system :=
  match detach_chunk w self chunk with
  | (true, w1) =>
    match chunk with
    | some c => destroy w1 c
    | none => w1
  | (false, w1) => w1

/-- `flexible_mem_model_process::unmap_from_cpu` (lines 134-141). -/
def unmap_from_cpu (w : system) (self : Nat) : system :=
  (w.procs self).attachs_.foldl
    (fun w attached =>
      if !(w.chunks attached.chunk_).fixed_ then
        { w with log := w.log ++ [call.unmap_from_cpu attached.chunk_ self] }
      else w) w

/-- `flexible_mem_model_process::remap_to_cpu` (lines 143-150). -/
def remap_to_cpu (w : system) (self : Nat) : system :=
  (w.procs self).attachs_.foldl
    (fun w attached =>
      if !(w.chunks attached.chunk_).fixed_ then
        { w with log := w.log ++ [call.map_to_cpu attached.chunk_ self] }
      else w) w

/-- A system with no chunk, no registration, no attachment and an empty log; process `p`
owns the address space with identifier `p`. -/
def empty_system (page_size_bits capacity : Nat) : system :=
  { page_size_bits_ := page_size_bits,
    chunk_mngr_ := { capacity := capacity, live := [] },
    chunks := fun _ => zero_chunk,
    mem_objs := fun _ => { mappings_ := [] },
    procs := fun p => { addr_space_id := p, attachs_ := [] },
    log := [] }

/-- Number of records of process `self` whose chunk is `chunk`. -/
def records_of (w : system) (self : Nat) (chunk : Nat) : Nat :=
  (w.procs self).attachs_.countP (fun info => info.chunk_ == chunk)

/-- The page counts of the `instantiate` calls of a log, in order. -/
def instantiate_counts : List call → List Nat
  | [] => []
  | call.instantiate _ page_count _ :: l => page_count :: instantiate_counts l
  | _ :: l => instantiate_counts l

/-- The arguments `(mem_obj, layout)` of the `attach_mapping` calls of a log, in order. -/
def attach_mapping_calls : List call → List (Nat × Option Nat)
  | [] => []
  | call.attach_mapping mem_obj layout :: l => (mem_obj, layout) :: attach_mapping_calls l
  | _ :: l => attach_mapping_calls l

/-- The chunks of the `destroy` calls of a log, in order. -/
def destroy_calls : List call → List Nat
  | [] => []
  | call.destroy chunk :: l => chunk :: destroy_calls l
  | _ :: l => destroy_calls l

/-- The page count in the words of the spec: `ceil(max_size / page_size)` for the page size
`2 ^ page_size_bits`. -/
def ceil_pages (max_size : Nat) (page_size_bits : Nat) : Nat :=
  (max_size + 2 ^ page_size_bits - 1) / 2 ^ page_size_bits

/-- One call of the kernel on a process. -/
inductive op where
  | create_chunk (self : Nat) (chunk : Option Nat) (create_info : mem_model_chunk_creation_info)
  | delete_chunk (self : Nat) (chunk : Option Nat)
  | attach_chunk (self : Nat) (chunk : Nat)
  | detach_chunk (self : Nat) (chunk : Option Nat)
  | unmap_from_cpu (self : Nat)
  | remap_to_cpu (self : Nat)

/-- The system after one call, the called code answering as `K` says. -/
def step (K : collaborators) (w : system) : op → system
  | op.create_chunk self chunk create_info => (create_chunk K w self chunk create_info).2.2
  | op.delete_chunk self chunk => delete_chunk w self chunk
  | op.attach_chunk self chunk => (attach_chunk K w self chunk).2
  | op.detach_chunk self chunk => (detach_chunk w self chunk).2
  | op.unmap_from_cpu self => unmap_from_cpu w self
  | op.remap_to_cpu self => remap_to_cpu w self

/-- The systems that a sequence of calls, on any processes and with any answers of the
called code, leads to from `w0`. -/
inductive reachable (w0 : system) : system → Prop where
  | init : reachable w0 w0
  | step (w : system) (K : collaborators) (o : op) : reachable w0 w → reachable w0 (step K w o)

/-- Sample answers: mappings are allocated at address 7, `instantiate` succeeds, and
`do_create` succeeds, taking `max()` and the flags from the creation info and giving the chunk
the memory object at address 5. -/
def sample_K : collaborators :=
  { make_mapping := 7,
    instantiate := fun _ _ => true,
    do_create := fun create_info c =>
      (0, { c with max := create_info.size, flags_ := create_info.flags, mem_obj_ := 5 }) }

/-- Sample answers as `sample_K`, except that `do_create` fails with status `-5`. -/
def sample_K_do_create_fails : collaborators :=
  { sample_K with do_create := fun _ c => (-5, c) }

/-- Sample answers as `sample_K`, except that `instantiate` fails. -/
def sample_K_instantiate_fails : collaborators :=
  { sample_K with instantiate := fun _ _ => false }

/-- Sample creation info: 4097 bytes, one byte more than a page of `2 ^ 12` bytes. -/
def sample_info : mem_model_chunk_creation_info :=
  { size := 4097, flags := 3, commit := 0 }

/-- Sample system: pages of `2 ^ 12` bytes, four chunk slots, and process 1 has created the
chunk at address 0 with `sample_info`. -/
def sample_system : system :=
  (create_chunk sample_K (empty_system 12 4) 1 none sample_info).2.2

/-- Sample chunk descriptor: owned by process 1, `max()` is 4097, memory object at address 5. -/
def sample_chunk : flexible_mem_model_chunk :=
  { owner_ := some 1, max := 4097, flags_ := 3, fixed_ := false, mem_obj_ := 5 }

/-- Sample system: pages of `2 ^ 12` bytes, the chunk at address 0 is live and is
`sample_chunk`, no process is attached to it, nothing is registered, the log is empty. -/
def sample_pool : system :=
  { empty_system 12 4 with
    chunk_mngr_ := { capacity := 4, live := [0] },
    chunks := store (fun _ => zero_chunk) 0 sample_chunk }

/-- Sample answers as `sample_K`, except that mappings are allocated at address 8. -/
def sample_K_second : collaborators :=
  { sample_K with make_mapping := 8 }

/-- As `sample_system`, and process 2 has attached the chunk at address 0 as well. -/
def sample_shared : system :=
  (attach_chunk sample_K_second sample_system 2 0).2

/-- In every process, no two attachment records are for the same chunk. -/
def distinct_chunks (w : system) : Prop :=
  ∀ p, ((w.procs p).attachs_.map (fun info => info.chunk_)).Nodup

end flexible
end eka2l1.mem

namespace eka2l1

/-! Run-length coding: `src/emu/common/include/common/runlen.h`. A byte is a `Nat`; a unit is
`BYTE_COUNT = BIT / 8` bytes. The loops take a bound `fuel` on the number of iterations and
give `none` when it is used up. The local arrays that the code declares without an initial
value hold the bytes that a `stale_arrays` value says their storage held. -/

namespace common

/-- Where `seek` counts from (`common::seek_where`; `runlen.h` uses `beg` and `cur`). -/
inductive seek_where where
  | beg
  | cur
deriving DecidableEq, Repr

/-- Modelled from the spec: `common::ro_stream` of `common/buffer.h`, which `runlen.h` only
includes and the spec does not describe; `compress_rle` is documented to take a "read-only
source stream of binary data". The model is a cursor `crr_pos` over the bytes `data`. -/
structure ro_stream where
  data : List Nat
  crr_pos : Nat
deriving DecidableEq, Repr

/-- Modelled from the spec: `ro_stream::valid()`, there is a byte left to read. -/
def ro_stream.valid (s : ro_stream) : Bool := decide (s.crr_pos < s.data.length)

/-- Modelled from the spec: `ro_stream::tell()`, the position of the cursor. -/
def ro_stream.tell (s : ro_stream) : Nat := s.crr_pos

/-- Modelled from the spec: `ro_stream::read(buf, size)` copies the next `size` bytes, or as
many as are left, and moves the cursor behind them; the result is the bytes copied (the
returned count is their number) and the stream. -/
def ro_stream.read (s : ro_stream) (size : Nat) : List Nat × ro_stream :=
  ((s.data.drop s.crr_pos).take size,
   { s with crr_pos := s.crr_pos + ((s.data.drop s.crr_pos).take size).length })

/-- Modelled from the spec: `ro_stream::seek(amount, wh)` moves the cursor to `amount`
(`beg`) or by `amount` (`cur`). -/
def ro_stream.seek (s : ro_stream) (amount : Int) : seek_where → ro_stream
  | seek_where.beg => { s with crr_pos := amount.toNat }
  | seek_where.cur => { s with crr_pos := ((s.crr_pos : Int) + amount).toNat }

/-- Modelled from the spec: `common::wo_stream` of `common/buffer.h`, a "write-only
destination stream": the bytes passed to `write` so far, in order, and the capacity of the
destination. -/
structure wo_stream where
  data : List Nat
  capacity : Nat
deriving DecidableEq, Repr

/-- Modelled from the spec: `wo_stream::valid()`, there is room for a byte. -/
def wo_stream.valid (d : wo_stream) : Bool := decide (d.data.length < d.capacity)

/-- Modelled from the spec: `wo_stream::left()`, the room left in bytes. -/
def wo_stream.left (d : wo_stream) : Nat := d.capacity - d.data.length

/-- Modelled from the spec: `wo_stream::write(buf, size)`; the stream records the bytes it
is passed. -/
def wo_stream.write (d : wo_stream) (buf : List Nat) : wo_stream :=
  { d with data := d.data ++ buf }

end common

open common

/-- A buffer after `got` has been copied to its front. -/
def overwrite (buf got : List Nat) : List Nat := got ++ buf.drop got.length

/-- What the storage of the local arrays holds when they are declared. The arrays `bytes`
and `temp_bytes` of `compress_rle` (lines 46, 53) and `comp` of `decompress_rle` (line 148)
are declared without an initial value in every iteration of the main loop, so the code may
find any bytes in them; each field gives the bytes found in the iteration with the given
fuel left. -/
structure stale_arrays where
  bytes : Nat → List Nat
  temp_bytes : Nat → List Nat
  comp : Nat → List Nat

/-- A local array of `n` bytes before anything is stored in it: it holds the bytes `stale`
that its storage held (zero where `stale` has fewer than `n` bytes). -/
def fresh_bytes (stale : List Nat) : Nat → List Nat
  | 0 => []
  | n + 1 => stale.headD 0 :: fresh_bytes stale.tail n

/-- `std::vector<std::uint8_t>::resize(n)`. -/
def resize (v : List Nat) (n : Nat) : List Nat := v.take n ++ List.replicate (n - v.length) 0

/-- `static_cast<std::int8_t>(x)`. -/
def to_int8 (x : Int) : Int := (x + 128) % 256 - 128

/-- `static_cast<std::uint8_t>(x)`, also the byte that stores a `std::int8_t`. -/
def to_uint8 (x : Int) : Nat := (x % 256).toNat

/-- `static_cast<std::int32_t>(x)`. -/
def to_int32 (x : Int) : Int := (x + 2 ^ 31) % 2 ^ 32 - 2 ^ 31

/-- `static_cast<std::uint32_t>(x)`. -/
def to_uint32 (x : Int) : Nat := (x % 2 ^ 32).toNat

/-- How a call of `compress_rle` ends: it returns a value, or the `assert` of line 69
fails. -/
inductive rle_status where
  | returned (value : Bool)
  | assert_failed
deriving DecidableEq, Repr

/-- The loop of lines 59-61: `do { read temp_bytes } while (valid && equal)`. -/
def repeat_scan (BYTE_COUNT : Nat) (bytes : List Nat) :
    Nat → List Nat → ro_stream → Option (List Nat × ro_stream)
  | 0, _, _ => none
  | fuel + 1, temp_bytes, source =>
    let r := source.read BYTE_COUNT
    let temp_bytes := overwrite temp_bytes r.1
    let source := r.2
    if source.valid && (bytes == temp_bytes) then
      repeat_scan BYTE_COUNT bytes fuel temp_bytes source
    else some (temp_bytes, source)

/-- The loop of lines 73-80, which writes the repeat records. -/
def write_repeats (bytes : List Nat) : Nat → Int → wo_stream → Option wo_stream
  | 0, _, _ => none
  | fuel + 1, total_pair, dest =>
    if total_pair > 0 then
      let total_this_session : Nat := if total_pair > 127 then 127 else to_uint8 total_pair
      let dest := dest.write [total_this_session]
      let dest := dest.write bytes
      write_repeats bytes fuel (total_pair - total_this_session) dest
    else some dest

/-- The loop of lines 87-93: `do { copy; read temp_bytes } while (valid && !equal)`. -/
def literal_scan (BYTE_COUNT : Nat) :
    Nat → Bool → List Nat → List Nat → ro_stream → Option (List Nat × List Nat × ro_stream)
  | 0, _, _, _, _ => none
  | fuel + 1, should_copy, bytes, temp_bytes, source =>
    let bytes := if should_copy then temp_bytes else bytes
    let r := source.read BYTE_COUNT
    let temp_bytes := overwrite temp_bytes r.1
    let source := r.2
    if source.valid && !(bytes == temp_bytes) then
      literal_scan BYTE_COUNT fuel true bytes temp_bytes source
    else some (bytes, temp_bytes, source)

/-- The loop of lines 106-119, which writes the literal records. -/
def write_literals (BYTE_COUNT : Nat) :
    Nat → Int → List Nat → ro_stream → wo_stream → Option (ro_stream × wo_stream)
  | 0, _, _, _, _ => none
  | fuel + 1, total_pair, temp_data, source, dest =>
    if total_pair > 0 then
      let total_this_session : Int := if total_pair > 128 then -128 else to_int8 (-total_pair)
      let dest := dest.write [to_uint8 total_this_session]
      let temp_data := resize temp_data (total_this_session * -(BYTE_COUNT : Int)).toNat
      let r := source.read temp_data.length
      let temp_data := overwrite temp_data r.1
      let dest := dest.write (temp_data.take (temp_data.length % 2 ^ 32))
      write_literals BYTE_COUNT fuel (total_pair + total_this_session) temp_data r.2 dest
    else some (source, dest)

/-- `compress_rle<BIT>` (lines 38-124). -/
def compress_rle (BIT : Nat) (stale : stale_arrays) :
    Nat → ro_stream → wo_stream → Option (rle_status × ro_stream × wo_stream)
  | 0, _, _ => none
  | fuel + 1, source, dest =>
    if source.valid && dest.valid then
      let BYTE_COUNT := BIT / 8
      let last_position := source.tell
      let r := source.read BYTE_COUNT
      let bytes := overwrite (fresh_bytes (stale.bytes fuel) BYTE_COUNT) r.1
      let source := r.2
      if r.1.length != BYTE_COUNT then
        some (rle_status.returned false, source, dest)
      else
        let r2 := source.read BYTE_COUNT
        let temp_bytes := overwrite (fresh_bytes (stale.temp_bytes fuel) BYTE_COUNT) r2.1
        let source := r2.2
        if r2.1.length == BYTE_COUNT && (bytes == temp_bytes) then
          let source := source.seek (-(BYTE_COUNT : Int)) seek_where.cur
          match repeat_scan BYTE_COUNT bytes fuel temp_bytes source with
          | none => none
          | some (_, source) =>
            let source :=
              if source.valid then source.seek (-(BYTE_COUNT : Int)) seek_where.cur else source
            let total_bytes_repeated := source.tell - last_position
            if total_bytes_repeated % BYTE_COUNT != 0 then
              some (rle_status.assert_failed, source, dest)
            else
              let total_pair : Int := ((total_bytes_repeated / BYTE_COUNT : Nat) : Int)
              match write_repeats bytes fuel total_pair dest with
              | none => none
              | some dest => compress_rle BIT stale fuel source dest
        else
          let source := source.seek (-(BYTE_COUNT : Int)) seek_where.cur
          match literal_scan BYTE_COUNT fuel false bytes temp_bytes source with
          | none => none
          | some (_, _, source) =>
            let source :=
              if source.valid then source.seek (-(BYTE_COUNT : Int)) seek_where.cur else source
            let total_bytes_repeated := source.tell - last_position
            let total_pair : Int := ((total_bytes_repeated / BYTE_COUNT : Nat) : Int)
            let source := source.seek last_position seek_where.beg
            match write_literals BYTE_COUNT fuel total_pair [] source dest with
            | none => none
            | some (source, dest) => compress_rle BIT stale fuel source dest
    else some (rle_status.returned true, source, dest)

/-- The loop of lines 150-152, which reads the unit `comp` byte by byte. -/
def read_comp (BYTE_COUNT : Nat) : Nat → Nat → List Nat → ro_stream → Option (List Nat × ro_stream)
  | 0, _, _, _ => none
  | fuel + 1, i, comp, source =>
    if i < BYTE_COUNT then
      let r := source.read 1
      read_comp BYTE_COUNT fuel (i + 1) (comp.take i ++ overwrite (comp.drop i) r.1) r.2
    else some (comp, source)

/-- The loop of lines 154-160, which writes the unit while `count >= 0`. -/
def write_run (comp : List Nat) : Nat → Int → wo_stream → Option wo_stream
  | 0, _, _ => none
  | fuel + 1, count, dest =>
    if count >= 0 then
      write_run comp fuel (count - 1) (comp.foldl (fun d b => d.write [b]) dest)
    else some dest

/-- `decompress_rle<BIT>` (lines 134-172). -/
def decompress_rle (BIT : Nat) (stale : stale_arrays) :
    Nat → ro_stream → wo_stream → Option (ro_stream × wo_stream)
  | 0, _, _ => none
  | fuel + 1, source, dest =>
    if source.valid && dest.valid then
      let r := source.read 1
      let count8 : Int := to_int8 ((overwrite [0] r.1).headD 0)
      let source := r.2
      let count : Int := count8
      let BYTE_COUNT := BIT / 8
      if count >= 0 then
        let count := min count (to_int32 ((dest.left / BYTE_COUNT : Nat) : Int))
        match read_comp BYTE_COUNT fuel 0 (fresh_bytes (stale.comp fuel) BYTE_COUNT) source with
        | none => none
        | some (comp, source) =>
          match write_run comp fuel count dest with
          | none => none
          | some dest => decompress_rle BIT stale fuel source dest
      else
        let num_bytes_to_copy := to_uint32 (count * -(BYTE_COUNT : Int))
        let num_bytes_to_copy := min num_bytes_to_copy (to_uint32 (dest.left : Int))
        let temp_buf_holder := resize [] num_bytes_to_copy
        let r := source.read num_bytes_to_copy
        let temp_buf_holder := overwrite temp_buf_holder r.1
        let dest := dest.write (temp_buf_holder.take num_bytes_to_copy)
        decompress_rle BIT stale fuel r.2 dest
    else some (source, dest)

/-- A record of the compressed stream, in the words of the claim about the output of
`compress_rle`: a repeat record (count byte `n`, one unit) or a literal record (count byte
`-k`, then `k` units). -/
inductive rle_record where
  | repeated (n : Nat) (unit : List Nat)
  | literal (k : Nat) (units : List Nat)
deriving DecidableEq, Repr

/-- The number of units a record stands for. -/
def rle_record.units : rle_record → Nat
  | rle_record.repeated n _ => n
  | rle_record.literal k _ => k

end eka2l1

/-! HAL dispatch: `src/emu/epoc/src/hal.cpp`. The state of the emulated machine that a HAL
function reads and writes through `sys` and the pointers `a1`, `a2` is a value of a type `σ`. -/

namespace eka2l1.epoc

/-- A call of a registered HAL function: the function id and the arguments it was given. -/
structure hal_call where
  func : Nat
  a1 : Option Nat
  a2 : Option Nat
  device_num : Nat
deriving DecidableEq, Repr

/-- What a dispatch returns: the `int` result, the state of the machine afterwards, and the
calls of registered HAL functions it made. -/
structure hal_result (σ : Type) where
  ret : Int
  state : σ
  invoked : List hal_call

/-- A HAL function as `REGISTER_HAL_FUNC` binds it (lines 37-38): from `a1`, `a2`,
`device_num` and the state of the machine to its `int` result and the new state. -/
abbrev hal_func (σ : Type) := Option Nat → Option Nat → Nat → σ → Int × σ

/-- The class `epoc::hal`: the map `funcs` from function id to HAL function. -/
structure hal (σ : Type) where
  funcs : Nat → Option (hal_func σ)

/-- `hal::do_hal` (lines 52-60). -/
def hal.do_hal {σ : Type} (h : hal σ) (func : Nat) (a1 a2 : Option Nat) (device_num : Nat)
    (st : σ) : hal_result σ :=
  match h.funcs func with
  | none => { ret := -1, state := st, invoked := [] }
  | some func_pair =>
    { ret := (func_pair a1 a2 device_num st).1,
      state := (func_pair a1 a2 device_num st).2,
      invoked := [{ func := func, a1 := a1, a2 := a2, device_num := device_num }] }

end eka2l1.epoc

namespace eka2l1

/-- The part of the class `eka2l1::system` that `do_hal` uses: `get_hal(category)`, the HAL
registered under a 16-bit category by `add_new_hal`, or null. -/
structure system (σ : Type) where
  get_hal : Nat → Option (epoc.hal σ)

end eka2l1

namespace eka2l1.epoc

/-- The free function `do_hal` (lines 285-303). `error_not_found` is the constant
`epoc::error_not_found` of `epoc/utils/err.h`; the two log lines have no effect on the
result. -/
def do_hal {σ : Type} (error_not_found : Int) (sys : eka2l1.system σ) (cage func : Nat)
    (a1 a2 : Option Nat) (st : σ) : hal_result σ :=
  match sys.get_hal (cage % 2 ^ 16) with
  | none => { ret := error_not_found, state := st, invoked := [] }
  | some hal_com =>
    let ret := hal_com.do_hal func a1 a2 ((cage >>> 16) % 2 ^ 16) st
    ret

/-- Sample HAL with one function, id 2, which stores nothing and returns the device number
plus 40. -/
def sample_hal : hal Nat :=
  { funcs := fun func =>
      if func = 2 then some (fun _ _ device_num st => ((device_num : Int) + 40, st + 1))
      else none }

/-- Sample system with `sample_hal` registered under category 4 and nothing else. -/
def sample_hal_system : eka2l1.system Nat :=
  { get_hal := fun category => if category = 4 then some sample_hal else none }

end eka2l1.epoc

/-! Time conversion: `src/emu/common/src/time.cpp`. The constants `microsecs_per_sec` and
`ad_epoc_dist_microsecs` are declared in `common/time.h`, which `time.cpp` only includes;
the functions take them as parameters. `std::uint64_t` arithmetic is modulo `2 ^ 64`. -/

namespace eka2l1.common

/-- `get_current_time_in_microseconds_since_1ad` (lines 34-37); `now` is the count of
microseconds since the epoch that the system clock gives, a signed 64-bit number. -/
def get_current_time_in_microseconds_since_1ad (ad_epoc_dist_microsecs : Nat) (now : Int) :
    Nat :=
  ((now + (ad_epoc_dist_microsecs : Int)) % 2 ^ 64).toNat

/-- `convert_microsecs_epoch_to_1ad` (lines 39-41). -/
def convert_microsecs_epoch_to_1ad (microsecs_per_sec ad_epoc_dist_microsecs : Nat)
    (micsecs : Nat) : Nat :=
  (micsecs * microsecs_per_sec + ad_epoc_dist_microsecs) % 2 ^ 64

/-- `convert_microsecs_win32_1601_epoch_to_1ad` (lines 43-45). -/
def convert_microsecs_win32_1601_epoch_to_1ad (ad_win32_epoch_dist_microsecs : Nat)
    (micsecs : Nat) : Nat :=
  (micsecs / 10 + ad_win32_epoch_dist_microsecs) % 2 ^ 64

/-- The number of microseconds in a second, the value the name `microsecs_per_sec` stands
for. -/
def sample_microsecs_per_sec : Nat := 1000000

/-- A sample value for `ad_epoc_dist_microsecs`: 62167132800 seconds in microseconds. -/
def sample_ad_epoc_dist_microsecs : Nat := 62167132800 * 1000000

end eka2l1.common

/-! ## Properties of the process operations -/

namespace eka2l1.mem.flexible

/-! ### Auxiliary facts -/

theorem instantiate_counts_append (l1 l2 : List call) :
    instantiate_counts (l1 ++ l2) = instantiate_counts l1 ++ instantiate_counts l2 := by
  induction l1 with
  | nil => rfl
  | cons x l ih => cases x <;> simp [instantiate_counts, ih]

theorem attach_mapping_calls_append (l1 l2 : List call) :
    attach_mapping_calls (l1 ++ l2) = attach_mapping_calls l1 ++ attach_mapping_calls l2 := by
  induction l1 with
  | nil => rfl
  | cons x l ih => cases x <;> simp [attach_mapping_calls, ih]

theorem destroy_calls_append (l1 l2 : List call) :
    destroy_calls (l1 ++ l2) = destroy_calls l1 ++ destroy_calls l2 := by
  induction l1 with
  | nil => rfl
  | cons x l ih => cases x <;> simp [destroy_calls, ih]

/-- The early return of `attach_chunk` (lines 88-91): a record for the chunk exists. -/
theorem attach_chunk_of_attached (K : collaborators) (w : system) (self chunk : Nat)
    (r : flexible_mem_model_chunk_attach_info)
    (h : (w.procs self).attachs_.find? (fun info => info.chunk_ == chunk) = some r) :
    attach_chunk K w self chunk = (false, w) := by
  simp only [attach_chunk, h]

/-- The two ways through `attach_chunk` (lines 93-112) when no record for the chunk exists. -/
theorem attach_chunk_of_fresh (K : collaborators) (w : system) (self chunk : Nat)
    (h : (w.procs self).attachs_.find? (fun info => info.chunk_ == chunk) = none) :
    attach_chunk K w self chunk =
      if K.instantiate (attach_page_count w chunk) (w.chunks chunk).flags_ = true then
        (true, attach_mapping
          (set_attachs
            { w with log := w.log ++
                [call.make_mapping K.make_mapping (w.procs self).addr_space_id,
                 call.instantiate K.make_mapping (attach_page_count w chunk)
                   (w.chunks chunk).flags_] }
            self ((w.procs self).attachs_ ++ [{ chunk_ := chunk, map_ := some K.make_mapping }]))
          (w.chunks chunk).mem_obj_ none)
      else
        (false, { w with log := w.log ++
                [call.make_mapping K.make_mapping (w.procs self).addr_space_id,
                 call.instantiate K.make_mapping (attach_page_count w chunk)
                   (w.chunks chunk).flags_] }) := by
  simp only [attach_chunk, h, move_attach_info]
  by_cases hi : K.instantiate (attach_page_count w chunk) (w.chunks chunk).flags_ = true
  · simp [hi]
  · simp [hi]

/-- A successful `attach_chunk` found no record, had `instantiate` succeed, and ends in the
system of line 112. -/
theorem attach_chunk_true (K : collaborators) (w : system) (self chunk : Nat)
    (h : (attach_chunk K w self chunk).1 = true) :
    (w.procs self).attachs_.find? (fun info => info.chunk_ == chunk) = none ∧
    K.instantiate (attach_page_count w chunk) (w.chunks chunk).flags_ = true ∧
    (attach_chunk K w self chunk).2 =
      attach_mapping
        (set_attachs
          { w with log := w.log ++
              [call.make_mapping K.make_mapping (w.procs self).addr_space_id,
               call.instantiate K.make_mapping (attach_page_count w chunk)
                 (w.chunks chunk).flags_] }
          self ((w.procs self).attachs_ ++ [{ chunk_ := chunk, map_ := some K.make_mapping }]))
        (w.chunks chunk).mem_obj_ none := by
  cases hf : (w.procs self).attachs_.find? (fun info => info.chunk_ == chunk) with
  | some r => rw [attach_chunk_of_attached K w self chunk r hf] at h; simp at h
  | none =>
    rw [attach_chunk_of_fresh K w self chunk hf] at h ⊢
    by_cases hi : K.instantiate (attach_page_count w chunk) (w.chunks chunk).flags_ = true
    · simp [hi]
    · simp [hi] at h

theorem ceil_pages_of_dvd (m b : Nat) (h : 2 ^ b ∣ m) : m / 2 ^ b = ceil_pages m b := by
  obtain ⟨k, rfl⟩ := h
  have hd : 0 < 2 ^ b := Nat.two_pow_pos b
  unfold ceil_pages
  rw [Nat.mul_div_cancel_left k hd]
  symm
  apply Nat.div_eq_of_lt_le
  · rw [Nat.mul_comm]; omega
  · rw [Nat.succ_mul, Nat.mul_comm]; omega

theorem ceil_pages_of_not_dvd (m b : Nat) (h : ¬ 2 ^ b ∣ m) :
    m / 2 ^ b + 1 = ceil_pages m b := by
  have hd : 0 < 2 ^ b := Nat.two_pow_pos b
  have hm : 0 < m % 2 ^ b := Nat.pos_of_ne_zero (fun h0 => h (Nat.dvd_of_mod_eq_zero h0))
  have hlt : m % 2 ^ b < 2 ^ b := Nat.mod_lt _ hd
  have hdm := Nat.div_add_mod m (2 ^ b)
  unfold ceil_pages
  symm
  apply Nat.div_eq_of_lt_le
  · rw [Nat.add_mul, Nat.mul_comm]; omega
  · rw [Nat.succ_mul, Nat.add_mul, Nat.mul_comm]; omega

/-! ### The page count of a mapping -/

/-- C1, as the code has it: for a chunk that is not yet attached, `attach_chunk` makes exactly
one call of `instantiate`, and the page count it passes is `chunk->max() >> page_size_bits_`,
the quotient `floor(max / 2 ^ page_size_bits_)`. That is the rounded-up count
`ceil(max / 2 ^ page_size_bits_)` when `max` is a multiple of the page size, and one page less
than the rounded-up count when it is not. -/
theorem attach_chunk_page_count (K : collaborators) (w : system) (self chunk : Nat)
    (hfresh : ∀ info ∈ (w.procs self).attachs_, info.chunk_ ≠ chunk) :
    instantiate_counts (attach_chunk K w self chunk).2.log =
        instantiate_counts w.log ++ [(w.chunks chunk).max / 2 ^ w.page_size_bits_] ∧
    (2 ^ w.page_size_bits_ ∣ (w.chunks chunk).max →
      (w.chunks chunk).max / 2 ^ w.page_size_bits_ =
        ceil_pages (w.chunks chunk).max w.page_size_bits_) ∧
    (¬ 2 ^ w.page_size_bits_ ∣ (w.chunks chunk).max →
      (w.chunks chunk).max / 2 ^ w.page_size_bits_ + 1 =
        ceil_pages (w.chunks chunk).max w.page_size_bits_) := by
  refine ⟨?_, ceil_pages_of_dvd _ _, ceil_pages_of_not_dvd _ _⟩
  have hf : (w.procs self).attachs_.find? (fun info => info.chunk_ == chunk) = none := by
    simpa [List.find?_eq_none] using hfresh
  rw [attach_chunk_of_fresh K w self chunk hf]
  by_cases hi : K.instantiate (attach_page_count w chunk) (w.chunks chunk).flags_ = true
  · rw [if_pos hi]
    simp [attach_mapping, set_attachs, instantiate_counts_append, instantiate_counts,
      attach_page_count, Nat.shiftRight_eq_div_pow]
  · rw [if_neg hi]
    simp [instantiate_counts_append, instantiate_counts,
      attach_page_count, Nat.shiftRight_eq_div_pow]

/-- C1, an instance: process 2 attaches the chunk at address 0 of `sample_pool`
(`max()` is 4097, pages of `2 ^ 12` bytes); the count passed is `4097 / 2 ^ 12`, and since
4097 is no multiple of `2 ^ 12` it is one less than `ceil_pages 4097 12`. -/
theorem attach_chunk_page_count_witness :
    (∀ info ∈ (sample_pool.procs 2).attachs_, info.chunk_ ≠ 0) ∧
    instantiate_counts (attach_chunk sample_K sample_pool 2 0).2.log =
      instantiate_counts sample_pool.log ++
        [(sample_pool.chunks 0).max / 2 ^ sample_pool.page_size_bits_] ∧
    (sample_pool.chunks 0).max / 2 ^ sample_pool.page_size_bits_ + 1 =
      ceil_pages (sample_pool.chunks 0).max sample_pool.page_size_bits_ :=
  ⟨by decide,
   (attach_chunk_page_count sample_K sample_pool 2 0 (by decide)).1,
   (attach_chunk_page_count sample_K sample_pool 2 0 (by decide)).2.2 (by decide)⟩

/-- C1 as stated fails: in `sample_pool` the chunk at address 0 has `max() = 4097` and is not
attached to process 2, the page size is `2 ^ 12`; `attach_chunk` calls `instantiate` with
page count 1, whereas `ceil(4097 / 4096)` is 2. -/
theorem attach_chunk_page_count_not_ceil :
    (sample_pool.procs 2).attachs_ = [] ∧
    (sample_pool.chunks 0).max = 4097 ∧ sample_pool.page_size_bits_ = 12 ∧
    (attach_chunk sample_K sample_pool 2 0).2.log =
      [call.make_mapping 7 2, call.instantiate 7 1 3, call.attach_mapping 5 none] ∧
    instantiate_counts (attach_chunk sample_K sample_pool 2 0).2.log = [1] ∧
    ceil_pages 4097 12 = 2 ∧
    instantiate_counts (attach_chunk sample_K sample_pool 2 0).2.log ≠
      instantiate_counts sample_pool.log ++ [ceil_pages 4097 12] := by
  decide

/-! ### Attaching -/

/-- C2, the code at a concrete input: process 2 attaches the chunk at address 0 of
`sample_pool`, whose memory object is at address 5, and the mapping is allocated at address 7.
The call succeeds and the appended record owns the mapping 7, but the argument of
`attach_mapping` is the null pointer, read from the moved-from `attach_info` (lines 107, 110);
the memory object ends up with a null registration and without the mapping 7. -/
theorem attach_chunk_registers_moved_from :
    (attach_chunk sample_K sample_pool 2 0).1 = true ∧
    ((attach_chunk sample_K sample_pool 2 0).2.procs 2).attachs_.getLast? =
      some { chunk_ := 0, map_ := some 7 } ∧
    attach_mapping_calls (attach_chunk sample_K sample_pool 2 0).2.log = [(5, none)] ∧
    ((attach_chunk sample_K sample_pool 2 0).2.mem_objs 5).mappings_ = [none] ∧
    some 7 ∉ ((attach_chunk sample_K sample_pool 2 0).2.mem_objs 5).mappings_ := by
  decide

/-- C3: when `attach_chunk(C)` has returned true, an immediately following `attach_chunk(C)`
of the same process returns false and returns the system as it was, whatever the called code
would have answered: the attachment list keeps its length and records, no mapping
is created, no memory object registration is made, and no call is logged. -/
theorem attach_chunk_twice (K K2 : collaborators) (w : system) (self chunk : Nat)
    (h : (attach_chunk K w self chunk).1 = true) :
    attach_chunk K2 (attach_chunk K w self chunk).2 self chunk =
      (false, (attach_chunk K w self chunk).2) := by
  obtain ⟨hf, _, hw⟩ := attach_chunk_true K w self chunk h
  have hsome : ∃ r, (((attach_chunk K w self chunk).2.procs self).attachs_.find?
      (fun info => info.chunk_ == chunk)) = some r := by
    rw [hw]
    simp [attach_mapping, set_attachs, store, List.find?_append, hf]
  obtain ⟨r, hr⟩ := hsome
  exact attach_chunk_of_attached K2 _ self chunk r hr

/-- C3, an instance: process 2 attaches the chunk at address 0 of `sample_pool` twice, the
second time with `instantiate` set to fail; the first call returns true, the second false,
and the attachment list still has its one record. -/
theorem attach_chunk_twice_witness :
    (attach_chunk sample_K sample_pool 2 0).1 = true ∧
    attach_chunk sample_K_instantiate_fails (attach_chunk sample_K sample_pool 2 0).2 2 0 =
      (false, (attach_chunk sample_K sample_pool 2 0).2) ∧
    ((attach_chunk sample_K sample_pool 2 0).2.procs 2).attachs_ =
      [{ chunk_ := 0, map_ := some 7 }] :=
  ⟨by decide,
   attach_chunk_twice sample_K sample_K_instantiate_fails sample_pool 2 0 (by decide),
   by decide⟩

/-! ### What each operation does to the attachment lists -/

theorem new_chunk_procs (w : system) (id : Nat) : (new_chunk w id).2.procs = w.procs := by
  unfold new_chunk
  split <;> rfl

theorem construct_chunk_procs (K : collaborators) (w : system) (self c : Nat)
    (ci : mem_model_chunk_creation_info) : (construct_chunk K w self c ci).2.procs = w.procs :=
  rfl

theorem destroy_procs (w : system) (c : Nat) : (destroy w c).procs = w.procs := rfl

/-- A failing `attach_chunk` changes nothing but the log. -/
theorem attach_chunk_false (K : collaborators) (w : system) (self chunk : Nat)
    (h : (attach_chunk K w self chunk).1 = false) :
    (attach_chunk K w self chunk).2.procs = w.procs ∧
    (attach_chunk K w self chunk).2.mem_objs = w.mem_objs ∧
    (attach_chunk K w self chunk).2.chunk_mngr_ = w.chunk_mngr_ ∧
    (attach_chunk K w self chunk).2.chunks = w.chunks ∧
    attach_mapping_calls (attach_chunk K w self chunk).2.log = attach_mapping_calls w.log := by
  cases hf : (w.procs self).attachs_.find? (fun info => info.chunk_ == chunk) with
  | some r => rw [attach_chunk_of_attached K w self chunk r hf]; simp
  | none =>
    rw [attach_chunk_of_fresh K w self chunk hf] at h ⊢
    by_cases hi : K.instantiate (attach_page_count w chunk) (w.chunks chunk).flags_ = true
    · simp [hi] at h
    · simp [hi, attach_mapping_calls_append, attach_mapping_calls]

theorem attach_chunk_distinct (K : collaborators) (w : system) (self chunk : Nat)
    (h : distinct_chunks w) : distinct_chunks (attach_chunk K w self chunk).2 := by
  intro p
  cases hb : (attach_chunk K w self chunk).1 with
  | false => rw [(attach_chunk_false K w self chunk hb).1]; exact h p
  | true =>
    obtain ⟨hf, _, hw⟩ := attach_chunk_true K w self chunk hb
    rw [hw]
    by_cases hp : p = self
    · subst hp
      have hnot : chunk ∉ (w.procs p).attachs_.map (fun info => info.chunk_) := by
        simpa [List.find?_eq_none] using hf
      simp only [attach_mapping, set_attachs, store, if_true, List.map_append, List.map_cons,
        List.map_nil]
      exact List.Nodup.append (h p) (List.nodup_singleton _) (by simpa using hnot)
    · simp only [attach_mapping, set_attachs, store, if_neg hp]
      exact h p

theorem detach_chunk_attachs (w : system) (self : Nat) (chunk : Option Nat) (p : Nat) :
    ((detach_chunk w self chunk).2.procs p).attachs_ =
      if p = self then
        (w.procs p).attachs_.eraseP (fun info => some info.chunk_ == chunk)
      else (w.procs p).attachs_ := by
  unfold detach_chunk
  cases hf : (w.procs self).attachs_.find? (fun info => some info.chunk_ == chunk) with
  | none =>
    by_cases hp : p = self
    · subst hp
      have : ∀ a ∈ (w.procs p).attachs_, ¬ ((some a.chunk_ == chunk) = true) := by
        simpa [List.find?_eq_none] using hf
      simp [List.eraseP_of_forall_not this]
    · simp [hp]
  | some r =>
    by_cases hp : p = self
    · subst hp; simp [set_attachs, detach_mapping, store]
    · simp [set_attachs, detach_mapping, store, hp]

theorem detach_chunk_distinct (w : system) (self : Nat) (chunk : Option Nat)
    (h : distinct_chunks w) : distinct_chunks (detach_chunk w self chunk).2 := by
  intro p
  rw [detach_chunk_attachs]
  by_cases hp : p = self
  · rw [if_pos hp]
    exact List.Nodup.sublist ((List.eraseP_sublist _).map _) (h p)
  · rw [if_neg hp]; exact h p

/-- The loop of `unmap_from_cpu` and `remap_to_cpu` only appends to the log. -/
theorem cpu_loop_frame (f : Nat → call) (l : List flexible_mem_model_chunk_attach_info)
    (w : system) :
    (l.foldl (fun w attached =>
        if !(w.chunks attached.chunk_).fixed_ then
          { w with log := w.log ++ [f attached.chunk_] }
        else w) w).procs = w.procs ∧
    (l.foldl (fun w attached =>
        if !(w.chunks attached.chunk_).fixed_ then
          { w with log := w.log ++ [f attached.chunk_] }
        else w) w).chunks = w.chunks ∧
    (l.foldl (fun w attached =>
        if !(w.chunks attached.chunk_).fixed_ then
          { w with log := w.log ++ [f attached.chunk_] }
        else w) w).mem_objs = w.mem_objs ∧
    (l.foldl (fun w attached =>
        if !(w.chunks attached.chunk_).fixed_ then
          { w with log := w.log ++ [f attached.chunk_] }
        else w) w).chunk_mngr_ = w.chunk_mngr_ := by
  induction l generalizing w with
  | nil => exact ⟨rfl, rfl, rfl, rfl⟩
  | cons a l ih =>
    simp only [List.foldl_cons]
    by_cases hfx : (w.chunks a.chunk_).fixed_ = true
    · simp only [hfx, Bool.not_true, Bool.false_eq_true, if_false]
      exact ih w
    · have hfx2 : (w.chunks a.chunk_).fixed_ = false := by simpa using hfx
      simp only [hfx2, Bool.not_false, if_true]
      exact ih _

theorem unmap_from_cpu_procs (w : system) (self : Nat) :
    (unmap_from_cpu w self).procs = w.procs :=
  (cpu_loop_frame (fun c => call.unmap_from_cpu c self) _ w).1

theorem remap_to_cpu_procs (w : system) (self : Nat) :
    (remap_to_cpu w self).procs = w.procs :=
  (cpu_loop_frame (fun c => call.map_to_cpu c self) _ w).1

theorem distinct_chunks_of_procs (w w2 : system) (h : w2.procs = w.procs)
    (hd : distinct_chunks w) : distinct_chunks w2 := by
  intro p; rw [h]; exact hd p

/-- The attachment lists after `create_chunk` are those after its call of `attach_chunk`,
or the lists it started with. -/
theorem create_chunk_distinct (K : collaborators) (w : system) (self : Nat)
    (chunk : Option Nat) (ci : mem_model_chunk_creation_info) (h : distinct_chunks w) :
    distinct_chunks (create_chunk K w self chunk ci).2.2 := by
  unfold create_chunk
  cases hn : new_chunk w (w.procs self).addr_space_id with
  | mk o w1 =>
    have hw1 : w1.procs = w.procs := by
      have := new_chunk_procs w (w.procs self).addr_space_id
      rw [hn] at this; exact this
    cases o with
    | none => exact distinct_chunks_of_procs w w1 hw1 h
    | some c =>
      simp only
      have h3 : distinct_chunks (construct_chunk K w1 self c ci).2 :=
        distinct_chunks_of_procs w _ (by rw [construct_chunk_procs]; exact hw1) h
      by_cases hr : (construct_chunk K w1 self c ci).1 = 0
      · simp only [hr, bne_self_eq_false, Bool.false_eq_true, if_false]
        have h4 := attach_chunk_distinct K (construct_chunk K w1 self c ci).2 self c h3
        cases ha : attach_chunk K (construct_chunk K w1 self c ci).2 self c with
        | mk b w4 =>
          rw [ha] at h4
          cases b with
          | false => exact distinct_chunks_of_procs w4 _ (destroy_procs _ _) h4
          | true => exact h4
      · have hne : ((construct_chunk K w1 self c ci).1 != 0) = true := by simpa using hr
        simp only [hne, if_true]
        exact distinct_chunks_of_procs _ _ (destroy_procs _ _) h3

theorem delete_chunk_distinct (w : system) (self : Nat) (chunk : Option Nat)
    (h : distinct_chunks w) : distinct_chunks (delete_chunk w self chunk) := by
  have hd := detach_chunk_distinct w self chunk h
  unfold delete_chunk
  cases hx : detach_chunk w self chunk with
  | mk b w1 =>
    rw [hx] at hd
    cases b with
    | false => exact hd
    | true =>
      cases chunk with
      | none => exact hd
      | some c => exact distinct_chunks_of_procs w1 _ (destroy_procs _ _) hd

theorem step_distinct (K : collaborators) (w : system) (o : op) (h : distinct_chunks w) :
    distinct_chunks (step K w o) := by
  cases o with
  | create_chunk self chunk ci => exact create_chunk_distinct K w self chunk ci h
  | delete_chunk self chunk => exact delete_chunk_distinct w self chunk h
  | attach_chunk self chunk => exact attach_chunk_distinct K w self chunk h
  | detach_chunk self chunk => exact detach_chunk_distinct w self chunk h
  | unmap_from_cpu self => exact distinct_chunks_of_procs w _ (unmap_from_cpu_procs w self) h
  | remap_to_cpu self => exact distinct_chunks_of_procs w _ (remap_to_cpu_procs w self) h

theorem reachable_distinct (w0 w : system) (h0 : distinct_chunks w0) (hr : reachable w0 w) :
    distinct_chunks w := by
  induction hr with
  | init => exact h0
  | step w K o _ ih => exact step_distinct K w o ih

theorem records_of_le_one (w : system) (h : distinct_chunks w) (p c : Nat) :
    records_of w p c ≤ 1 := by
  have h1 := List.nodup_iff_count_le_one.mp (h p) c
  have h2 : records_of w p c = List.count c ((w.procs p).attachs_.map (fun info => info.chunk_)) := by
    unfold records_of
    rw [List.count, List.countP_map]
    rfl
  omega

/-! ### The attachment list holds a chunk at most once -/

/-- C4: in every system reachable from one in which all attachment lists are empty, by any
sequence of `create_chunk`, `delete_chunk`, `attach_chunk`, `detach_chunk`, `unmap_from_cpu`
and `remap_to_cpu` calls on any processes, with any answers of the called code,
the attachment list of every process `p` has at most one record for every chunk `c`. -/
theorem attachment_chunks_distinct (w0 w : system)
    (h0 : ∀ p, (w0.procs p).attachs_ = []) (hr : reachable w0 w) (p c : Nat) :
    records_of w p c ≤ 1 :=
  records_of_le_one w (reachable_distinct w0 w (fun q => by rw [h0 q]; exact List.nodup_nil) hr) p c

/-- C4, an instance: from the empty system, process 1 creates a chunk (at address 0) and
process 2 attaches it. -/
theorem attachment_chunks_distinct_witness :
    (∀ p, ((empty_system 12 4).procs p).attachs_ = []) ∧
    ∀ p c, records_of
      (step sample_K_second
        (step sample_K (empty_system 12 4) (op.create_chunk 1 none sample_info))
        (op.attach_chunk 2 0)) p c ≤ 1 :=
  ⟨fun _ => rfl,
   attachment_chunks_distinct (empty_system 12 4) _ (fun _ => rfl)
    (reachable.step _ sample_K_second (op.attach_chunk 2 0)
      (reachable.step _ sample_K (op.create_chunk 1 none sample_info) reachable.init))⟩

/-! ### Detaching and deleting -/

theorem detach_chunk_of_absent (w : system) (self : Nat) (chunk : Option Nat)
    (h : (w.procs self).attachs_.find? (fun info => some info.chunk_ == chunk) = none) :
    detach_chunk w self chunk = (false, w) := by
  simp only [detach_chunk, h]

theorem detach_chunk_of_present (w : system) (self : Nat) (chunk : Option Nat)
    (r : flexible_mem_model_chunk_attach_info)
    (h : (w.procs self).attachs_.find? (fun info => some info.chunk_ == chunk) = some r) :
    chunk = some r.chunk_ ∧
    detach_chunk w self chunk =
      (true, set_attachs (detach_mapping w (w.chunks r.chunk_).mem_obj_ r.map_) self
        ((w.procs self).attachs_.eraseP (fun info => some info.chunk_ == chunk))) := by
  constructor
  · have := List.find?_some h
    have h2 : some r.chunk_ = chunk := by simpa using this
    exact h2.symm
  · simp only [detach_chunk, h]
    rfl

/-- A null pointer is never found in the attachment list. -/
theorem detach_chunk_null (w : system) (self : Nat) : detach_chunk w self none = (false, w) := by
  apply detach_chunk_of_absent
  simp [List.find?_eq_none]

theorem delete_chunk_of_absent (w : system) (self : Nat) (chunk : Option Nat)
    (h : (w.procs self).attachs_.find? (fun info => some info.chunk_ == chunk) = none) :
    delete_chunk w self chunk = w := by
  simp only [delete_chunk, detach_chunk_of_absent w self chunk h]

theorem delete_chunk_of_present (w : system) (self : Nat) (chunk : Option Nat)
    (r : flexible_mem_model_chunk_attach_info)
    (h : (w.procs self).attachs_.find? (fun info => some info.chunk_ == chunk) = some r) :
    delete_chunk w self chunk =
      destroy (set_attachs (detach_mapping w (w.chunks r.chunk_).mem_obj_ r.map_) self
        ((w.procs self).attachs_.eraseP (fun info => some info.chunk_ == chunk))) r.chunk_ := by
  obtain ⟨hc, hd⟩ := detach_chunk_of_present w self chunk r h
  simp only [delete_chunk, hd]
  subst hc
  rfl

theorem countP_eraseP_self {α : Type} (p : α → Bool) (l : List α) :
    (l.eraseP p).countP p = l.countP p - 1 := by
  induction l with
  | nil => rfl
  | cons a l ih =>
    by_cases ha : p a = true
    · simp [List.eraseP_cons, ha]
    · have ha2 : p a = false := by simpa using ha
      simp [List.eraseP_cons, ha2, ih]

theorem records_of_delete_chunk (w : system) (self c : Nat) :
    records_of (delete_chunk w self (some c)) self c = records_of w self c - 1 := by
  have hp : (fun info : flexible_mem_model_chunk_attach_info => some info.chunk_ == some c) =
      (fun info => info.chunk_ == c) := by
    funext info; simp
  cases hf : (w.procs self).attachs_.find? (fun info => some info.chunk_ == some c) with
  | none =>
    rw [delete_chunk_of_absent w self _ hf]
    have h0 : records_of w self c = 0 := by
      unfold records_of
      rw [hp] at hf
      rw [List.countP_eq_zero]
      simpa [List.find?_eq_none] using hf
    omega
  | some r =>
    rw [delete_chunk_of_present w self _ r hf]
    simp only [records_of, destroy, set_attachs, detach_mapping, store, if_true]
    rw [hp]
    exact countP_eraseP_self _ _

theorem delete_chunk_log (w : system) (self : Nat) (chunk : Option Nat) :
    destroy_calls (delete_chunk w self chunk).log =
      match (w.procs self).attachs_.find? (fun info => some info.chunk_ == chunk) with
      | none => destroy_calls w.log
      | some r => destroy_calls w.log ++ [r.chunk_] := by
  cases hf : (w.procs self).attachs_.find? (fun info => some info.chunk_ == chunk) with
  | none => rw [delete_chunk_of_absent w self _ hf]
  | some r =>
    rw [delete_chunk_of_present w self _ r hf]
    simp [destroy, set_attachs, detach_mapping, destroy_calls_append, destroy_calls]

theorem delete_chunk_others (w : system) (self : Nat) (chunk : Option Nat) (q : Nat)
    (hq : q ≠ self) : (delete_chunk w self chunk).procs q = w.procs q := by
  cases hf : (w.procs self).attachs_.find? (fun info => some info.chunk_ == chunk) with
  | none => rw [delete_chunk_of_absent w self _ hf]
  | some r =>
    rw [delete_chunk_of_present w self _ r hf]
    simp [destroy, set_attachs, detach_mapping, store, hq]

/-! ### Creating -/

theorem chunk_manager_new_chunk_some (m m1 : chunk_manager) (c : Nat)
    (h : m.new_chunk = (some c, m1)) :
    c ∉ m.live ∧ m1 = { m with live := m.live ++ [c] } := by
  unfold chunk_manager.new_chunk at h
  cases hf : (List.range m.capacity).find? (fun s => !m.live.contains s) with
  | none => rw [hf] at h; simp at h
  | some s =>
    rw [hf] at h
    simp only [Prod.mk.injEq, Option.some.injEq] at h
    obtain ⟨rfl, rfl⟩ := h
    have := List.find?_some hf
    exact ⟨by simpa using this, rfl⟩

theorem chunk_manager_new_chunk_none (m m1 : chunk_manager)
    (h : m.new_chunk = (none, m1)) : m1 = m := by
  unfold chunk_manager.new_chunk at h
  cases hf : (List.range m.capacity).find? (fun s => !m.live.contains s) with
  | none => rw [hf] at h; simp at h; exact h.symm
  | some s => rw [hf] at h; simp at h

/-- Destroying the chunk that `new_chunk` has just handed out restores the manager. -/
theorem chunk_manager_destroy_new (m m1 : chunk_manager) (c : Nat)
    (h : m.new_chunk = (some c, m1)) : m1.destroy c = m := by
  obtain ⟨hc, rfl⟩ := chunk_manager_new_chunk_some m m1 c h
  simp [chunk_manager.destroy, List.erase_append_right _ hc]

theorem new_chunk_some (w w1 : system) (id c : Nat) (h : new_chunk w id = (some c, w1)) :
    w1.procs = w.procs ∧ w1.mem_objs = w.mem_objs ∧ w1.page_size_bits_ = w.page_size_bits_ ∧
    w1.chunks = store w.chunks c zero_chunk ∧
    w1.log = w.log ++ [call.new_chunk id] ∧
    w.chunk_mngr_.new_chunk = (some c, w1.chunk_mngr_) := by
  unfold new_chunk at h
  cases hm : w.chunk_mngr_.new_chunk with
  | mk o m =>
    rw [hm] at h
    cases o with
    | none => simp at h
    | some c2 =>
      simp only [Prod.mk.injEq, Option.some.injEq] at h
      obtain ⟨rfl, rfl⟩ := h
      exact ⟨rfl, rfl, rfl, rfl, rfl, rfl⟩

theorem new_chunk_none (w w1 : system) (id : Nat) (h : new_chunk w id = (none, w1)) :
    w1 = { w with log := w.log ++ [call.new_chunk id] } := by
  unfold new_chunk at h
  cases hm : w.chunk_mngr_.new_chunk with
  | mk o m =>
    rw [hm] at h
    cases o with
    | some c2 => simp at h
    | none =>
      simp only [Prod.mk.injEq, true_and] at h
      rw [← h, chunk_manager_new_chunk_none _ _ hm]

/-- The three ways through `create_chunk` after a successful allocation. -/
theorem create_chunk_of_new (K : collaborators) (w w1 : system) (self c : Nat)
    (chunk : Option Nat) (ci : mem_model_chunk_creation_info)
    (h : new_chunk w (w.procs self).addr_space_id = (some c, w1)) :
    create_chunk K w self chunk ci =
      if (construct_chunk K w1 self c ci).1 ≠ 0 then
        ((construct_chunk K w1 self c ci).1, chunk, destroy (construct_chunk K w1 self c ci).2 c)
      else if (attach_chunk K (construct_chunk K w1 self c ci).2 self c).1 = true then
        (0, chunk, (attach_chunk K (construct_chunk K w1 self c ci).2 self c).2)
      else
        (-1, chunk, destroy (attach_chunk K (construct_chunk K w1 self c ci).2 self c).2 c) := by
  simp only [create_chunk, h]
  by_cases hr : (construct_chunk K w1 self c ci).1 = 0
  · simp only [hr, bne_self_eq_false, Bool.false_eq_true, if_false, ne_eq, not_true_eq_false]
    cases ha : attach_chunk K (construct_chunk K w1 self c ci).2 self c with
    | mk b w4 => cases b <;> simp
  · have hne : ((construct_chunk K w1 self c ci).1 != 0) = true := by simpa using hr
    simp only [hne, if_true, ne_eq, hr, not_false_eq_true]

theorem create_chunk_of_exhausted (K : collaborators) (w w1 : system) (self : Nat)
    (chunk : Option Nat) (ci : mem_model_chunk_creation_info)
    (h : new_chunk w (w.procs self).addr_space_id = (none, w1)) :
    create_chunk K w self chunk ci = (-1, chunk, w1) := by
  simp only [create_chunk, h]

/-- A `create_chunk` that returns a non-zero status leaves the attachment lists, the chunk
manager and the memory objects as they were and calls `attach_mapping` on none. -/
theorem create_chunk_failure_frame (K : collaborators) (w : system) (self : Nat)
    (chunk : Option Nat) (ci : mem_model_chunk_creation_info)
    (h : (create_chunk K w self chunk ci).1 ≠ 0) :
    (create_chunk K w self chunk ci).2.2.procs = w.procs ∧
    (create_chunk K w self chunk ci).2.2.chunk_mngr_ = w.chunk_mngr_ ∧
    (create_chunk K w self chunk ci).2.2.mem_objs = w.mem_objs ∧
    attach_mapping_calls (create_chunk K w self chunk ci).2.2.log =
      attach_mapping_calls w.log := by
  cases hn : new_chunk w (w.procs self).addr_space_id with
  | mk o w1 =>
    cases o with
    | none =>
      rw [create_chunk_of_exhausted K w w1 self chunk ci hn, new_chunk_none w w1 _ hn]
      simp [attach_mapping_calls_append, attach_mapping_calls]
    | some c =>
      obtain ⟨hp, hm, _, _, hl, hcm⟩ := new_chunk_some w w1 _ c hn
      have hdm := chunk_manager_destroy_new _ _ c hcm
      have hlog3 : attach_mapping_calls (construct_chunk K w1 self c ci).2.log =
          attach_mapping_calls w.log := by
        simp [construct_chunk, hl, attach_mapping_calls_append, attach_mapping_calls]
      rw [create_chunk_of_new K w w1 self c chunk ci hn] at h ⊢
      by_cases hr : (construct_chunk K w1 self c ci).1 ≠ 0
      · rw [if_pos hr]
        refine ⟨hp, hdm, hm, ?_⟩
        simp only [destroy, attach_mapping_calls_append, attach_mapping_calls,
          List.append_nil]
        exact hlog3
      · rw [if_neg hr] at h ⊢
        by_cases ha : (attach_chunk K (construct_chunk K w1 self c ci).2 self c).1 = true
        · rw [if_pos ha] at h; exact absurd rfl h
        · rw [if_neg ha]
          have ha2 : (attach_chunk K (construct_chunk K w1 self c ci).2 self c).1 = false := by
            simpa using ha
          obtain ⟨fp, fm, fc, _, fl⟩ := attach_chunk_false K _ self c ha2
          refine ⟨?_, ?_, ?_, ?_⟩
          · show (attach_chunk K (construct_chunk K w1 self c ci).2 self c).2.procs = w.procs
            rw [fp]; exact hp
          · show (attach_chunk K (construct_chunk K w1 self c ci).2 self c).2.chunk_mngr_.destroy c
              = w.chunk_mngr_
            rw [fc]; exact hdm
          · show (attach_chunk K (construct_chunk K w1 self c ci).2 self c).2.mem_objs = w.mem_objs
            rw [fm]; exact hm
          · simp only [destroy, attach_mapping_calls_append, attach_mapping_calls,
              List.append_nil]
            rw [fl]; exact hlog3

/-! ### Destroying a chunk -/

/-- `attach_chunk` makes no `destroy` call. -/
theorem attach_chunk_destroy_calls (K : collaborators) (w : system) (self chunk : Nat) :
    destroy_calls (attach_chunk K w self chunk).2.log = destroy_calls w.log := by
  cases hf : (w.procs self).attachs_.find? (fun info => info.chunk_ == chunk) with
  | some r => rw [attach_chunk_of_attached K w self chunk r hf]
  | none =>
    rw [attach_chunk_of_fresh K w self chunk hf]
    by_cases hi : K.instantiate (attach_page_count w chunk) (w.chunks chunk).flags_ = true
    · rw [if_pos hi]
      simp [attach_mapping, set_attachs, destroy_calls_append, destroy_calls]
    · rw [if_neg hi]
      simp [destroy_calls_append, destroy_calls]

/-- The `destroy` calls of a `create_chunk` that returns a non-zero status: none when the
allocation failed, and otherwise exactly one, for the chunk that `new_chunk` allocated, which
is not live afterwards. -/
theorem create_chunk_failure_destroys (K : collaborators) (w : system) (self : Nat)
    (chunk : Option Nat) (ci : mem_model_chunk_creation_info)
    (h : (create_chunk K w self chunk ci).1 ≠ 0) :
    ((new_chunk w (w.procs self).addr_space_id).1 = none →
      destroy_calls (create_chunk K w self chunk ci).2.2.log = destroy_calls w.log) ∧
    (∀ c, (new_chunk w (w.procs self).addr_space_id).1 = some c →
      destroy_calls (create_chunk K w self chunk ci).2.2.log = destroy_calls w.log ++ [c] ∧
      c ∉ (create_chunk K w self chunk ci).2.2.chunk_mngr_.live) := by
  have hframe := create_chunk_failure_frame K w self chunk ci h
  cases hn : new_chunk w (w.procs self).addr_space_id with
  | mk o w1 =>
    cases o with
    | none =>
      refine ⟨fun _ => ?_, fun c hc => by simp at hc⟩
      rw [create_chunk_of_exhausted K w w1 self chunk ci hn, new_chunk_none w w1 _ hn]
      simp [destroy_calls_append, destroy_calls]
    | some c =>
      refine ⟨fun hc => by simp at hc, fun c2 hc2 => ?_⟩
      have hcc : c = c2 := by simpa using hc2
      subst hcc
      obtain ⟨_, _, _, _, hl, hcm⟩ := new_chunk_some w w1 _ c hn
      have hnot : c ∉ w.chunk_mngr_.live := (chunk_manager_new_chunk_some _ _ c hcm).1
      refine ⟨?_, by rw [hframe.2.1]; exact hnot⟩
      have hlog3 : destroy_calls (construct_chunk K w1 self c ci).2.log =
          destroy_calls w.log := by
        simp [construct_chunk, hl, destroy_calls_append, destroy_calls]
      rw [create_chunk_of_new K w w1 self c chunk ci hn] at h ⊢
      by_cases hr : (construct_chunk K w1 self c ci).1 ≠ 0
      · rw [if_pos hr]
        simp only [destroy, destroy_calls_append, destroy_calls, hlog3]
      · rw [if_neg hr] at h ⊢
        by_cases ha : (attach_chunk K (construct_chunk K w1 self c ci).2 self c).1 = true
        · rw [if_pos ha] at h; exact absurd rfl h
        · rw [if_neg ha]
          simp only [destroy, destroy_calls_append, destroy_calls,
            attach_chunk_destroy_calls, hlog3]

/-- C5, as the code has it. (1) When `delete_chunk` of process `self` makes the chunk
manager destroy chunk `c` (a `destroy(c)` call is logged), the pointer given was `c`, the
attachment list of `self`, if it held at most one record for `c`, now holds none, and the
attachment list of every other process is exactly what it was, whether or not it holds a
record for `c`. (2) A `create_chunk` that fails destroys the chunk it allocated, if it
allocated one: it makes exactly one `destroy` call, for the chunk `new_chunk` handed out,
which is not live afterwards (and no `destroy` call when `new_chunk` failed); it leaves the
attachment list of every process exactly what it was. -/
theorem destroy_consults_caller_only (K : collaborators) (w : system) (self : Nat)
    (chunk : Option Nat) (ci : mem_model_chunk_creation_info) (c : Nat) :
    (destroy_calls (delete_chunk w self chunk).log = destroy_calls w.log ++ [c] →
      records_of w self c ≤ 1 →
        chunk = some c ∧ records_of (delete_chunk w self chunk) self c = 0 ∧
        ∀ q, q ≠ self → (delete_chunk w self chunk).procs q = w.procs q) ∧
    ((create_chunk K w self chunk ci).1 ≠ 0 →
      (create_chunk K w self chunk ci).2.2.procs = w.procs ∧
      ((new_chunk w (w.procs self).addr_space_id).1 = none →
        destroy_calls (create_chunk K w self chunk ci).2.2.log = destroy_calls w.log) ∧
      (∀ c2, (new_chunk w (w.procs self).addr_space_id).1 = some c2 →
        destroy_calls (create_chunk K w self chunk ci).2.2.log =
          destroy_calls w.log ++ [c2] ∧
        c2 ∉ (create_chunk K w self chunk ci).2.2.chunk_mngr_.live)) := by
  refine ⟨fun hlog hle => ?_, fun hfail =>
    ⟨(create_chunk_failure_frame K w self chunk ci hfail).1,
     create_chunk_failure_destroys K w self chunk ci hfail⟩⟩
  have hl := delete_chunk_log w self chunk
  cases hf : (w.procs self).attachs_.find? (fun info => some info.chunk_ == chunk) with
  | none =>
    rw [hf] at hl
    rw [hl] at hlog
    simp at hlog
  | some r =>
    rw [hf] at hl
    rw [hl] at hlog
    have hrc : r.chunk_ = c := by simpa using hlog
    have hc : chunk = some c := by
      rw [← hrc]; exact (detach_chunk_of_present w self chunk r hf).1
    subst hc
    refine ⟨rfl, ?_, fun q hq => delete_chunk_others w self _ q hq⟩
    rw [records_of_delete_chunk]
    omega

/-- C5, an instance: in `sample_system` process 1 deletes its chunk at address 0; and in
the empty system a `create_chunk` of process 1 fails in `do_create` after the chunk at
address 0 was allocated. -/
theorem destroy_consults_caller_only_witness :
    (destroy_calls (delete_chunk sample_system 1 (some 0)).log =
        destroy_calls sample_system.log ++ [0] ∧
      records_of sample_system 1 0 ≤ 1) ∧
    (records_of (delete_chunk sample_system 1 (some 0)) 1 0 = 0 ∧
      ∀ q, q ≠ 1 → (delete_chunk sample_system 1 (some 0)).procs q = sample_system.procs q) ∧
    ((create_chunk sample_K_do_create_fails (empty_system 12 4) 1 none sample_info).1 ≠ 0 ∧
      (new_chunk (empty_system 12 4) ((empty_system 12 4).procs 1).addr_space_id).1 = some 0) ∧
    (create_chunk sample_K_do_create_fails (empty_system 12 4) 1 none sample_info).2.2.procs =
      (empty_system 12 4).procs ∧
    (destroy_calls
        (create_chunk sample_K_do_create_fails (empty_system 12 4) 1 none sample_info).2.2.log =
      destroy_calls (empty_system 12 4).log ++ [0] ∧
     0 ∉ (create_chunk sample_K_do_create_fails (empty_system 12 4) 1 none
       sample_info).2.2.chunk_mngr_.live) :=
  ⟨⟨by decide, by decide⟩,
   ((destroy_consults_caller_only sample_K sample_system 1 (some 0) sample_info 0).1
      (by decide) (by decide)).2,
   ⟨by decide, by decide⟩,
   ((destroy_consults_caller_only sample_K_do_create_fails (empty_system 12 4) 1 none
      sample_info 0).2 (by decide)).1,
   ((destroy_consults_caller_only sample_K_do_create_fails (empty_system 12 4) 1 none
      sample_info 0).2 (by decide)).2.2 0 (by decide)⟩

/-- C5 as stated fails: in `sample_shared` the chunk at address 0, created by process 1, is
attached to processes 1 and 2. `delete_chunk` of process 1 makes the chunk manager destroy
it (a `destroy(0)` call, after which no chunk is live), and the attachment list of process 2
still holds its record for the chunk. -/
theorem delete_chunk_destroys_attached_chunk :
    (sample_shared.procs 1).attachs_ = [{ chunk_ := 0, map_ := some 7 }] ∧
    (sample_shared.procs 2).attachs_ = [{ chunk_ := 0, map_ := some 8 }] ∧
    sample_shared.chunk_mngr_.live = [0] ∧
    destroy_calls sample_shared.log = [] ∧
    destroy_calls (delete_chunk sample_shared 1 (some 0)).log = [0] ∧
    (delete_chunk sample_shared 1 (some 0)).chunk_mngr_.live = [] ∧
    ((delete_chunk sample_shared 1 (some 0)).procs 2).attachs_ =
      [{ chunk_ := 0, map_ := some 8 }] ∧
    records_of (delete_chunk sample_shared 1 (some 0)) 2 0 = 1 := by
  decide

/-- C6, the code at a concrete input: in the empty system process 1 calls `create_chunk`
with a null pointer in the reference parameter `chunk`. The call returns 0 and the record of
the new chunk, at address 0, is appended to the attachment list, but `chunk` is still null on
return: no statement of `create_chunk` assigns it. -/
theorem create_chunk_leaves_handle_unset :
    (create_chunk sample_K (empty_system 12 4) 1 none sample_info).1 = 0 ∧
    ((create_chunk sample_K (empty_system 12 4) 1 none sample_info).2.2.procs 1).attachs_ =
      [{ chunk_ := 0, map_ := some 7 }] ∧
    (create_chunk sample_K (empty_system 12 4) 1 none sample_info).2.2.chunk_mngr_.live = [0] ∧
    (create_chunk sample_K (empty_system 12 4) 1 none sample_info).2.1 = none ∧
    (create_chunk sample_K (empty_system 12 4) 1 none sample_info).2.1 ≠ some 0 := by
  decide

/-- C7, the code at a concrete input: in the empty system, with no live chunk, process 1
calls `create_chunk` with a null pointer in `chunk`, which returns 0, and then `delete_chunk`
on the handle it got back. The handle is still null, so nothing is detached or destroyed: one
chunk stays live and its record stays in the attachment list. -/
theorem create_then_delete_handle_keeps_chunk :
    (empty_system 12 4).chunk_mngr_.live.length = 0 ∧
    (create_chunk sample_K (empty_system 12 4) 1 none sample_info).1 = 0 ∧
    (delete_chunk (create_chunk sample_K (empty_system 12 4) 1 none sample_info).2.2 1
      (create_chunk sample_K (empty_system 12 4) 1 none sample_info).2.1).chunk_mngr_.live.length
        = 1 ∧
    ((delete_chunk (create_chunk sample_K (empty_system 12 4) 1 none sample_info).2.2 1
      (create_chunk sample_K (empty_system 12 4) 1 none sample_info).2.1).procs 1).attachs_ =
        [{ chunk_ := 0, map_ := some 7 }] := by
  decide

/-- A `create_chunk` that returns 0 ends in the system its `attach_chunk` call returns. -/
theorem create_chunk_success_state (K : collaborators) (w : system) (self : Nat)
    (chunk : Option Nat) (ci : mem_model_chunk_creation_info)
    (h : (create_chunk K w self chunk ci).1 = 0) :
    ∃ c w1, new_chunk w (w.procs self).addr_space_id = (some c, w1) ∧
      (attach_chunk K (construct_chunk K w1 self c ci).2 self c).1 = true ∧
      (create_chunk K w self chunk ci).2.2 =
        (attach_chunk K (construct_chunk K w1 self c ci).2 self c).2 := by
  cases hn : new_chunk w (w.procs self).addr_space_id with
  | mk o w1 =>
    cases o with
    | none => rw [create_chunk_of_exhausted K w w1 self chunk ci hn] at h; simp at h
    | some c =>
      refine ⟨c, w1, rfl, ?_⟩
      rw [create_chunk_of_new K w w1 self c chunk ci hn] at h ⊢
      by_cases hr : (construct_chunk K w1 self c ci).1 ≠ 0
      · rw [if_pos hr] at h; exact absurd h hr
      · rw [if_neg hr] at h ⊢
        by_cases ha : (attach_chunk K (construct_chunk K w1 self c ci).2 self c).1 = true
        · rw [if_pos ha]; exact ⟨ha, rfl⟩
        · rw [if_neg ha] at h; simp at h

/-- Had `delete_chunk` been given the address of the chunk that a successful `create_chunk`
allocated, the chunk manager would be as before the `create_chunk` and the creator would hold
no record for the chunk. -/
theorem create_then_delete_new_chunk (K : collaborators) (w : system) (self : Nat)
    (chunk : Option Nat) (ci : mem_model_chunk_creation_info)
    (h : (create_chunk K w self chunk ci).1 = 0) :
    ∃ c, (new_chunk w (w.procs self).addr_space_id).1 = some c ∧
      (delete_chunk (create_chunk K w self chunk ci).2.2 self (some c)).chunk_mngr_ =
        w.chunk_mngr_ ∧
      records_of (delete_chunk (create_chunk K w self chunk ci).2.2 self (some c)) self c = 0 := by
  obtain ⟨c, w1, hn, ha, hs⟩ := create_chunk_success_state K w self chunk ci h
  obtain ⟨_, _, _, _, _, hcm⟩ := new_chunk_some w w1 _ c hn
  obtain ⟨hf, _, hw⟩ := attach_chunk_true K _ self c ha
  refine ⟨c, by rw [hn], ?_, ?_⟩
  · rw [hs, hw]
    have hfind : ((attach_mapping
        (set_attachs
          { (construct_chunk K w1 self c ci).2 with log := (construct_chunk K w1 self c ci).2.log ++
              [call.make_mapping K.make_mapping
                 (((construct_chunk K w1 self c ci).2).procs self).addr_space_id,
               call.instantiate K.make_mapping
                 (attach_page_count (construct_chunk K w1 self c ci).2 c)
                 (((construct_chunk K w1 self c ci).2).chunks c).flags_] }
          self ((((construct_chunk K w1 self c ci).2).procs self).attachs_ ++
            [{ chunk_ := c, map_ := some K.make_mapping }]))
        (((construct_chunk K w1 self c ci).2).chunks c).mem_obj_ none).procs self).attachs_.find?
          (fun info => some info.chunk_ == some c) =
        some { chunk_ := c, map_ := some K.make_mapping } := by
      have hall : ∀ x ∈ ((construct_chunk K w1 self c ci).2.procs self).attachs_,
          ¬ x.chunk_ = c := by
        simpa [List.find?_eq_none] using hf
      simp [attach_mapping, set_attachs, store, List.find?_append]
      exact Or.inr hall
    rw [delete_chunk_of_present _ self _ _ hfind]
    show (construct_chunk K w1 self c ci).2.chunk_mngr_.destroy c = w.chunk_mngr_
    exact chunk_manager_destroy_new _ _ c hcm
  · rw [records_of_delete_chunk, hs, hw]
    have h0 : List.countP (fun info => info.chunk_ == c)
        (((construct_chunk K w1 self c ci).2.procs self).attachs_) = 0 := by
      rw [List.countP_eq_zero]
      simpa [List.find?_eq_none] using hf
    simp only [records_of, attach_mapping, set_attachs, store, if_true,
      List.countP_append, h0]
    simp

/-- C8: when `create_chunk` returns 0, the chunk that `new_chunk` allocated has `owner_`
equal to the creating process, given that `do_create`, which runs after the assignment of
line 46, leaves `owner_` alone, and exactly one record of the creator's attachment list is for
that chunk. -/
theorem create_chunk_owner_and_record (K : collaborators) (w : system) (self : Nat)
    (chunk : Option Nat) (ci : mem_model_chunk_creation_info)
    (hown : ∀ c, (K.do_create ci c).2.owner_ = c.owner_)
    (h : (create_chunk K w self chunk ci).1 = 0) :
    ∃ c, (new_chunk w (w.procs self).addr_space_id).1 = some c ∧
      ((create_chunk K w self chunk ci).2.2.chunks c).owner_ = some self ∧
      records_of (create_chunk K w self chunk ci).2.2 self c = 1 := by
  cases hn : new_chunk w (w.procs self).addr_space_id with
  | mk o w1 =>
    cases o with
    | none => rw [create_chunk_of_exhausted K w w1 self chunk ci hn] at h; simp at h
    | some c =>
      refine ⟨c, rfl, ?_⟩
      rw [create_chunk_of_new K w w1 self c chunk ci hn] at h ⊢
      by_cases hr : (construct_chunk K w1 self c ci).1 ≠ 0
      · rw [if_pos hr] at h; exact absurd h hr
      · rw [if_neg hr] at h ⊢
        by_cases ha : (attach_chunk K (construct_chunk K w1 self c ci).2 self c).1 = true
        · rw [if_pos ha]
          obtain ⟨hf, _, hw⟩ := attach_chunk_true K _ self c ha
          simp only
          rw [hw]
          constructor
          · simp [attach_mapping, set_attachs, construct_chunk, store, hown]
          · have h0 : List.countP (fun info => info.chunk_ == c)
                (((construct_chunk K w1 self c ci).2.procs self).attachs_) = 0 := by
              rw [List.countP_eq_zero]
              simpa [List.find?_eq_none] using hf
            simp only [records_of, attach_mapping, set_attachs, store, if_true,
              List.countP_append, h0]
            simp
        · rw [if_neg ha] at h; simp at h

/-- C8, an instance: process 1 creates a chunk in the empty system. -/
theorem create_chunk_owner_and_record_witness :
    (create_chunk sample_K (empty_system 12 4) 1 none sample_info).1 = 0 ∧
    ∃ c, (new_chunk (empty_system 12 4) ((empty_system 12 4).procs 1).addr_space_id).1 = some c ∧
      ((create_chunk sample_K (empty_system 12 4) 1 none sample_info).2.2.chunks c).owner_ =
        some 1 ∧
      records_of (create_chunk sample_K (empty_system 12 4) 1 none sample_info).2.2 1 c = 1 :=
  ⟨by decide,
   create_chunk_owner_and_record sample_K (empty_system 12 4) 1 none sample_info
     (fun _ => rfl) (by decide)⟩

/-- C9: when `create_chunk` returns a non-zero status, the attachment lists are as before
the call, the chunk manager is as before the call (the same live chunks: a chunk allocated
during the call has been destroyed), every memory object has the registrations it had, and
the call has made no `attach_mapping` call. -/
theorem create_chunk_transactional (K : collaborators) (w : system) (self : Nat)
    (chunk : Option Nat) (ci : mem_model_chunk_creation_info)
    (h : (create_chunk K w self chunk ci).1 ≠ 0) :
    ((create_chunk K w self chunk ci).2.2.procs self).attachs_ = (w.procs self).attachs_ ∧
    (create_chunk K w self chunk ci).2.2.procs = w.procs ∧
    (create_chunk K w self chunk ci).2.2.chunk_mngr_.live = w.chunk_mngr_.live ∧
    (∀ o, ((create_chunk K w self chunk ci).2.2.mem_objs o).mappings_ =
      (w.mem_objs o).mappings_) ∧
    attach_mapping_calls (create_chunk K w self chunk ci).2.2.log =
      attach_mapping_calls w.log := by
  obtain ⟨hp, hc, hm, hl⟩ := create_chunk_failure_frame K w self chunk ci h
  exact ⟨by rw [hp], hp, by rw [hc], fun o => by rw [hm], hl⟩

/-- C9, instances: in `sample_system`, where the chunk at address 0 is live and attached to
process 1, a `create_chunk` of process 1 fails in `do_create`, and another fails in
`instantiate`; in a system without a free chunk slot it fails in `new_chunk`. -/
theorem create_chunk_transactional_witness :
    ((create_chunk sample_K_do_create_fails sample_system 1 none sample_info).1 = -5 ∧
      (create_chunk sample_K_do_create_fails sample_system 1 none sample_info).2.2.chunk_mngr_.live
        = [0] ∧
      sample_system.chunk_mngr_.live = [0]) ∧
    ((create_chunk sample_K_instantiate_fails sample_system 1 none sample_info).1 = -1 ∧
      (create_chunk sample_K_instantiate_fails sample_system 1 none sample_info).2.2.procs =
        sample_system.procs) ∧
    ((create_chunk sample_K (empty_system 12 0) 1 none sample_info).1 = -1 ∧
      (create_chunk sample_K (empty_system 12 0) 1 none sample_info).2.2.procs =
        (empty_system 12 0).procs) :=
  ⟨⟨by decide,
    (create_chunk_transactional sample_K_do_create_fails sample_system 1 none sample_info
      (by decide)).2.2.1.trans (by decide),
    by decide⟩,
   ⟨by decide,
    (create_chunk_transactional sample_K_instantiate_fails sample_system 1 none sample_info
      (by decide)).2.1⟩,
   ⟨by decide,
    (create_chunk_transactional sample_K (empty_system 12 0) 1 none sample_info
      (by decide)).2.1⟩⟩

/-- C10: (1) when the chunk manager yields a chunk `c` and `do_create(create_info)`, called
on `c` after `owner_` has been set, returns `r` with `r ≠ 0`, `create_chunk` returns `r`;
(2) `create_chunk` returns 0 only if the chunk manager yields a chunk, its `do_create` returns
0 and `attach_chunk` of it returns true. -/
theorem create_chunk_status (K : collaborators) (w : system) (self : Nat)
    (chunk : Option Nat) (ci : mem_model_chunk_creation_info) :
    (∀ c w1 r, new_chunk w (w.procs self).addr_space_id = (some c, w1) →
      (K.do_create ci { (w1.chunks c) with owner_ := some self }).1 = r → r ≠ 0 →
        (create_chunk K w self chunk ci).1 = r) ∧
    ((create_chunk K w self chunk ci).1 = 0 →
      ∃ c w1, new_chunk w (w.procs self).addr_space_id = (some c, w1) ∧
        (K.do_create ci { (w1.chunks c) with owner_ := some self }).1 = 0 ∧
        (attach_chunk K (construct_chunk K w1 self c ci).2 self c).1 = true) := by
  have hcc : ∀ c w1, (construct_chunk K w1 self c ci).1 =
      (K.do_create ci { (w1.chunks c) with owner_ := some self }).1 := by
    intro c w1; simp [construct_chunk, store]
  constructor
  · intro c w1 r hn hr hne
    rw [create_chunk_of_new K w w1 self c chunk ci hn, hcc, hr, if_pos hne]
  · intro h
    cases hn : new_chunk w (w.procs self).addr_space_id with
    | mk o w1 =>
      cases o with
      | none => rw [create_chunk_of_exhausted K w w1 self chunk ci hn] at h; simp at h
      | some c =>
        refine ⟨c, w1, rfl, ?_⟩
        rw [create_chunk_of_new K w w1 self c chunk ci hn] at h
        by_cases hr : (construct_chunk K w1 self c ci).1 ≠ 0
        · rw [if_pos hr] at h; exact absurd h hr
        · rw [if_neg hr] at h
          have hr0 : (construct_chunk K w1 self c ci).1 = 0 := by simpa using hr
          by_cases ha : (attach_chunk K (construct_chunk K w1 self c ci).2 self c).1 = true
          · exact ⟨by rw [← hcc]; exact hr0, ha⟩
          · rw [if_neg ha] at h; simp at h

/-- C10, instances: in the empty system `do_create` fails with `-5` on the chunk at address
0 and `create_chunk` returns `-5`; with `sample_K` it returns 0 and all three steps have
succeeded. -/
theorem create_chunk_status_witness :
    (create_chunk sample_K_do_create_fails (empty_system 12 4) 1 none sample_info).1 = -5 ∧
    (create_chunk sample_K (empty_system 12 4) 1 none sample_info).1 = 0 ∧
    ∃ c w1, new_chunk (empty_system 12 4) ((empty_system 12 4).procs 1).addr_space_id =
        (some c, w1) ∧
      (sample_K.do_create sample_info { (w1.chunks c) with owner_ := some 1 }).1 = 0 ∧
      (attach_chunk sample_K (construct_chunk sample_K w1 1 c sample_info).2 1 c).1 = true :=
  ⟨(create_chunk_status sample_K_do_create_fails (empty_system 12 4) 1 none sample_info).1
      0 (new_chunk (empty_system 12 4) 1).2 (-5) rfl rfl (by decide),
   by decide,
   (create_chunk_status sample_K (empty_system 12 4) 1 none sample_info).2 (by decide)⟩

/-! ### Detaching twice, attach and detach -/

theorem some_chunk_beq (c : Nat) :
    (fun info : flexible_mem_model_chunk_attach_info => some info.chunk_ == some c) =
      (fun info => info.chunk_ == c) := by
  funext info; simp

theorem find_none_of_records_zero (w : system) (self c : Nat) (h : records_of w self c = 0) :
    (w.procs self).attachs_.find? (fun info => some info.chunk_ == some c) = none := by
  rw [some_chunk_beq, List.find?_eq_none]
  unfold records_of at h
  rw [List.countP_eq_zero] at h
  exact h

/-- After a successful `detach_chunk` in a system where no chunk has two records, the
chunk has no record left. -/
theorem records_of_detach_chunk (w : system) (self c : Nat) :
    records_of (detach_chunk w self (some c)).2 self c = records_of w self c - 1 := by
  unfold records_of
  rw [detach_chunk_attachs, if_pos rfl, some_chunk_beq]
  exact countP_eraseP_self _ _

/-- C11: in a system reached from empty attachment lists, let `r` be the record of process
`self` for chunk `c`. The first `detach_chunk(c)` returns true and makes one call, namely
`detach_mapping` on the memory object of `c` with the mapping `r.map_` of that record; the
second `detach_chunk(c)` returns false and returns the system as it was. -/
theorem detach_chunk_twice (w0 w : system) (h0 : ∀ p, (w0.procs p).attachs_ = [])
    (hr : reachable w0 w) (self c : Nat) (r : flexible_mem_model_chunk_attach_info)
    (hatt : (w.procs self).attachs_.find? (fun info => info.chunk_ == c) = some r) :
    (detach_chunk w self (some c)).1 = true ∧
    (detach_chunk w self (some c)).2.log =
      w.log ++ [call.detach_mapping (w.chunks c).mem_obj_ r.map_] ∧
    detach_chunk (detach_chunk w self (some c)).2 self (some c) =
      (false, (detach_chunk w self (some c)).2) := by
  have hd : distinct_chunks w :=
    reachable_distinct w0 w (fun q => by rw [h0 q]; exact List.nodup_nil) hr
  have hatt2 : (w.procs self).attachs_.find? (fun info => some info.chunk_ == some c) = some r := by
    rw [some_chunk_beq]; exact hatt
  obtain ⟨hc, hdet⟩ := detach_chunk_of_present w self (some c) r hatt2
  have hrc : r.chunk_ = c := by simpa using hc.symm
  refine ⟨by rw [hdet], ?_, ?_⟩
  · rw [hdet, hrc]; rfl
  · apply detach_chunk_of_absent
    apply find_none_of_records_zero
    rw [records_of_detach_chunk]
    have := records_of_le_one w hd self c
    omega

/-- C11, an instance: process 2 detaches the chunk at address 0 of `sample_shared` twice. -/
theorem detach_chunk_twice_witness :
    (∀ p, ((empty_system 12 4).procs p).attachs_ = []) ∧
    (sample_shared.procs 2).attachs_.find? (fun info => info.chunk_ == 0) =
      some { chunk_ := 0, map_ := some 8 } ∧
    (detach_chunk sample_shared 2 (some 0)).1 = true ∧
    (detach_chunk sample_shared 2 (some 0)).2.log =
      sample_shared.log ++ [call.detach_mapping (sample_shared.chunks 0).mem_obj_ (some 8)] ∧
    detach_chunk (detach_chunk sample_shared 2 (some 0)).2 2 (some 0) =
      (false, (detach_chunk sample_shared 2 (some 0)).2) :=
  ⟨fun _ => rfl, by decide,
   detach_chunk_twice (empty_system 12 4) sample_shared (fun _ => rfl)
     (reachable.step _ sample_K_second (op.attach_chunk 2 0)
       (reachable.step _ sample_K (op.create_chunk 1 none sample_info) reachable.init))
     2 0 { chunk_ := 0, map_ := some 8 } (by decide)⟩

/-- C12, the code at a concrete input: in `sample_pool` nothing is registered with the
memory object (address 5) of the chunk at address 0 and process 2 has no attachment. Process 2
attaches the chunk, the mapping being allocated at address 7, and detaches it. The attachment
list is empty again, but `attach_mapping` was called with the null pointer of the moved-from
`attach_info` and `detach_mapping` with the mapping 7 of the record, so the null registration
stays with the memory object. -/
theorem attach_detach_leaves_registration :
    (sample_pool.procs 2).attachs_ = [] ∧
    (sample_pool.mem_objs 5).mappings_ = [] ∧
    (attach_chunk sample_K sample_pool 2 0).1 = true ∧
    (detach_chunk (attach_chunk sample_K sample_pool 2 0).2 2 (some 0)).1 = true ∧
    (detach_chunk (attach_chunk sample_K sample_pool 2 0).2 2 (some 0)).2.log =
      [call.make_mapping 7 2, call.instantiate 7 1 3, call.attach_mapping 5 none,
       call.detach_mapping 5 (some 7)] ∧
    ((detach_chunk (attach_chunk sample_K sample_pool 2 0).2 2 (some 0)).2.procs 2).attachs_
      = [] ∧
    ((detach_chunk (attach_chunk sample_K sample_pool 2 0).2 2 (some 0)).2.mem_objs 5).mappings_
      = [none] ∧
    ((detach_chunk (attach_chunk sample_K sample_pool 2 0).2 2 (some 0)).2.mem_objs 5).mappings_
      ≠ (sample_pool.mem_objs 5).mappings_ := by
  decide

/-- C13: when `instantiate` fails in `attach_chunk(c)` for a chunk without a record,
`attach_chunk` returns false, the processes (so the attachment list) and the memory objects
are as before, no `attach_mapping` call is made, and the only calls are the creation of the
mapping and the failed `instantiate`. -/
theorem attach_chunk_instantiate_fails (K : collaborators) (w : system) (self chunk : Nat)
    (hfresh : ∀ info ∈ (w.procs self).attachs_, info.chunk_ ≠ chunk)
    (hi : K.instantiate (attach_page_count w chunk) (w.chunks chunk).flags_ = false) :
    (attach_chunk K w self chunk).1 = false ∧
    ((attach_chunk K w self chunk).2.procs self).attachs_ = (w.procs self).attachs_ ∧
    (attach_chunk K w self chunk).2.procs = w.procs ∧
    (attach_chunk K w self chunk).2.mem_objs = w.mem_objs ∧
    attach_mapping_calls (attach_chunk K w self chunk).2.log = attach_mapping_calls w.log ∧
    (attach_chunk K w self chunk).2.log = w.log ++
      [call.make_mapping K.make_mapping (w.procs self).addr_space_id,
       call.instantiate K.make_mapping (attach_page_count w chunk) (w.chunks chunk).flags_] := by
  have hf : (w.procs self).attachs_.find? (fun info => info.chunk_ == chunk) = none := by
    simpa [List.find?_eq_none] using hfresh
  rw [attach_chunk_of_fresh K w self chunk hf, hi]
  simp [attach_mapping_calls_append, attach_mapping_calls]

/-- C13, an instance: process 2 attaches the chunk at address 0 of `sample_pool` and
`instantiate` fails. -/
theorem attach_chunk_instantiate_fails_witness :
    (∀ info ∈ (sample_pool.procs 2).attachs_, info.chunk_ ≠ 0) ∧
    sample_K_instantiate_fails.instantiate (attach_page_count sample_pool 0)
      (sample_pool.chunks 0).flags_ = false ∧
    (attach_chunk sample_K_instantiate_fails sample_pool 2 0).1 = false ∧
    (attach_chunk sample_K_instantiate_fails sample_pool 2 0).2.procs = sample_pool.procs ∧
    (attach_chunk sample_K_instantiate_fails sample_pool 2 0).2.mem_objs = sample_pool.mem_objs :=
  ⟨by decide, rfl,
   (attach_chunk_instantiate_fails sample_K_instantiate_fails sample_pool 2 0
      (by decide) rfl).1,
   (attach_chunk_instantiate_fails sample_K_instantiate_fails sample_pool 2 0
      (by decide) rfl).2.2.1,
   (attach_chunk_instantiate_fails sample_K_instantiate_fails sample_pool 2 0
      (by decide) rfl).2.2.2.1⟩

/-! ### Scheduling events -/

/-- The calls that the loop of `unmap_from_cpu` and `remap_to_cpu` appends to the log. -/
theorem cpu_loop_log (f : Nat → call) (l : List flexible_mem_model_chunk_attach_info)
    (w : system) :
    (l.foldl (fun w attached =>
        if !(w.chunks attached.chunk_).fixed_ then
          { w with log := w.log ++ [f attached.chunk_] }
        else w) w).log =
      w.log ++ (l.filter (fun attached => !(w.chunks attached.chunk_).fixed_)).map
        (fun attached => f attached.chunk_) := by
  induction l generalizing w with
  | nil => simp
  | cons a l ih =>
    simp only [List.foldl_cons]
    by_cases hfx : (w.chunks a.chunk_).fixed_ = true
    · simp only [hfx, Bool.not_true, Bool.false_eq_true, if_false]
      rw [ih w]
      simp [List.filter_cons, hfx]
    · have hfx2 : (w.chunks a.chunk_).fixed_ = false := by simpa using hfx
      simp only [hfx2, Bool.not_false, if_true]
      rw [ih]
      simp [List.filter_cons, hfx2]

/-- C14: `unmap_from_cpu` (resp. `remap_to_cpu`) of process `self` makes exactly the calls
`chunk->unmap_from_cpu(this)` (resp. `chunk->map_to_cpu(this)`) for the attachments whose
chunk has `fixed_ == false`, one call per such attachment, in the order of the attachment
list, and no call for an attachment whose chunk has `fixed_ == true`; the processes, chunk
descriptors, memory objects and chunk manager are unchanged. -/
theorem cpu_events_skip_fixed (w : system) (self : Nat) :
    (unmap_from_cpu w self).log =
      w.log ++ ((w.procs self).attachs_.filter
        (fun attached => !(w.chunks attached.chunk_).fixed_)).map
        (fun attached => call.unmap_from_cpu attached.chunk_ self) ∧
    (remap_to_cpu w self).log =
      w.log ++ ((w.procs self).attachs_.filter
        (fun attached => !(w.chunks attached.chunk_).fixed_)).map
        (fun attached => call.map_to_cpu attached.chunk_ self) ∧
    ((unmap_from_cpu w self).procs = w.procs ∧ (unmap_from_cpu w self).chunks = w.chunks ∧
      (unmap_from_cpu w self).mem_objs = w.mem_objs ∧
      (unmap_from_cpu w self).chunk_mngr_ = w.chunk_mngr_) ∧
    ((remap_to_cpu w self).procs = w.procs ∧ (remap_to_cpu w self).chunks = w.chunks ∧
      (remap_to_cpu w self).mem_objs = w.mem_objs ∧
      (remap_to_cpu w self).chunk_mngr_ = w.chunk_mngr_) :=
  ⟨cpu_loop_log (fun c => call.unmap_from_cpu c self) _ w,
   cpu_loop_log (fun c => call.map_to_cpu c self) _ w,
   cpu_loop_frame (fun c => call.unmap_from_cpu c self) _ w,
   cpu_loop_frame (fun c => call.map_to_cpu c self) _ w⟩

/-! ### Deleting -/

/-- C15: in a system reached from empty attachment lists, (1) when process `self` has a
record for the chunk, `delete_chunk` makes exactly one `destroy` call, for that chunk; (2) when
it has none, `delete_chunk` returns the system as it was, so makes no `destroy` call and
leaves attachment lists, registrations and chunk manager alone; (3) a second `delete_chunk`
of the same chunk right after the first changes nothing. -/
theorem delete_chunk_idempotent (w0 w : system) (h0 : ∀ p, (w0.procs p).attachs_ = [])
    (hr : reachable w0 w) (self : Nat) (chunk : Option Nat) :
    ((∃ r ∈ (w.procs self).attachs_, some r.chunk_ = chunk) →
      ∃ c, chunk = some c ∧
        destroy_calls (delete_chunk w self chunk).log = destroy_calls w.log ++ [c]) ∧
    ((¬ ∃ r ∈ (w.procs self).attachs_, some r.chunk_ = chunk) →
      delete_chunk w self chunk = w) ∧
    delete_chunk (delete_chunk w self chunk) self chunk = delete_chunk w self chunk := by
  have hd : distinct_chunks w :=
    reachable_distinct w0 w (fun q => by rw [h0 q]; exact List.nodup_nil) hr
  have hl := delete_chunk_log w self chunk
  cases hf : (w.procs self).attachs_.find? (fun info => some info.chunk_ == chunk) with
  | none =>
    have hno : ¬ ∃ r ∈ (w.procs self).attachs_, some r.chunk_ = chunk := by
      rw [List.find?_eq_none] at hf
      rintro ⟨r, hr1, hr2⟩
      exact hf r hr1 (by simp [hr2])
    have hw := delete_chunk_of_absent w self chunk hf
    refine ⟨fun h => absurd h hno, fun _ => hw, ?_⟩
    rw [hw, hw]
  | some r =>
    rw [hf] at hl
    obtain ⟨hc, _⟩ := detach_chunk_of_present w self chunk r hf
    have hyes : ∃ r ∈ (w.procs self).attachs_, some r.chunk_ = chunk :=
      ⟨r, List.mem_of_find?_eq_some hf, hc.symm⟩
    refine ⟨fun _ => ⟨r.chunk_, hc, hl⟩, fun h => absurd hyes h, ?_⟩
    subst hc
    apply delete_chunk_of_absent
    apply find_none_of_records_zero
    rw [records_of_delete_chunk]
    have := records_of_le_one w hd self r.chunk_
    omega

/-- C15, instances: process 1 deletes the chunk at address 0 of `sample_system`, which it
holds, and the chunk at address 3, which it does not hold. -/
theorem delete_chunk_idempotent_witness :
    (∀ p, ((empty_system 12 4).procs p).attachs_ = []) ∧
    (destroy_calls (delete_chunk sample_system 1 (some 0)).log =
      destroy_calls sample_system.log ++ [0]) ∧
    delete_chunk sample_system 1 (some 3) = sample_system ∧
    delete_chunk (delete_chunk sample_system 1 (some 0)) 1 (some 0) =
      delete_chunk sample_system 1 (some 0) :=
  ⟨fun _ => rfl, by decide,
   (delete_chunk_idempotent (empty_system 12 4) sample_system (fun _ => rfl)
     (reachable.step _ sample_K (op.create_chunk 1 none sample_info) reachable.init)
     1 (some 3)).2.1 (by decide),
   (delete_chunk_idempotent (empty_system 12 4) sample_system (fun _ => rfl)
     (reachable.step _ sample_K (op.create_chunk 1 none sample_info) reachable.init)
     1 (some 0)).2.2⟩

/-! ### The result and the frame of attach and detach -/

/-- A successful `detach_chunk` found a record for the chunk. -/
theorem detach_chunk_true_mem (w : system) (self : Nat) (chunk : Option Nat)
    (h : (detach_chunk w self chunk).1 = true) :
    ∃ r ∈ (w.procs self).attachs_, some r.chunk_ = chunk := by
  cases hf : (w.procs self).attachs_.find? (fun info => some info.chunk_ == chunk) with
  | none => rw [detach_chunk_of_absent w self chunk hf] at h; simp at h
  | some r =>
    exact ⟨r, List.mem_of_find?_eq_some hf, (detach_chunk_of_present w self chunk r hf).1.symm⟩

/-- C16: `detach_chunk` returns true exactly when the attachment list of the process has a
record for the chunk; when it returns false it returns the system as it was: attachment
lists and registrations of all memory objects unchanged, no `detach_mapping` call logged. -/
theorem detach_chunk_result (w : system) (self : Nat) (chunk : Option Nat) :
    ((detach_chunk w self chunk).1 = true ↔
      ∃ r ∈ (w.procs self).attachs_, some r.chunk_ = chunk) ∧
    ((detach_chunk w self chunk).1 = false → (detach_chunk w self chunk).2 = w) := by
  cases hf : (w.procs self).attachs_.find? (fun info => some info.chunk_ == chunk) with
  | none =>
    rw [detach_chunk_of_absent w self chunk hf]
    rw [List.find?_eq_none] at hf
    refine ⟨⟨fun h => by simp at h, ?_⟩, fun _ => rfl⟩
    rintro ⟨r, hr1, hr2⟩
    exact absurd (by simp [hr2]) (hf r hr1)
  | some r =>
    obtain ⟨hc, hdet⟩ := detach_chunk_of_present w self chunk r hf
    rw [hdet]
    exact ⟨⟨fun _ => ⟨r, List.mem_of_find?_eq_some hf, hc.symm⟩, fun _ => rfl⟩,
      fun h => by simp at h⟩

/-- C17: a successful `attach_chunk(c)` of process `self` only appends: the attachment list
of `self` is the previous list followed by the one record `{c, mapping}`, and the attachment
lists of the other processes are as before. -/
theorem attach_chunk_appends (K : collaborators) (w : system) (self chunk : Nat)
    (h : (attach_chunk K w self chunk).1 = true) :
    ((attach_chunk K w self chunk).2.procs self).attachs_ =
      (w.procs self).attachs_ ++ [{ chunk_ := chunk, map_ := some K.make_mapping }] ∧
    ∀ q, q ≠ self → (attach_chunk K w self chunk).2.procs q = w.procs q := by
  obtain ⟨_, _, hw⟩ := attach_chunk_true K w self chunk h
  rw [hw]
  refine ⟨by simp [attach_mapping, set_attachs, store], fun q hq => ?_⟩
  simp [attach_mapping, set_attachs, store, hq]

/-- C17, an instance: process 2 attaches the chunk at address 0 of `sample_system`. -/
theorem attach_chunk_appends_witness :
    (attach_chunk sample_K_second sample_system 2 0).1 = true ∧
    ((attach_chunk sample_K_second sample_system 2 0).2.procs 2).attachs_ =
      (sample_system.procs 2).attachs_ ++ [{ chunk_ := 0, map_ := some 8 }] ∧
    ∀ q, q ≠ 2 → (attach_chunk sample_K_second sample_system 2 0).2.procs q =
      sample_system.procs q :=
  ⟨by decide, attach_chunk_appends sample_K_second sample_system 2 0 (by decide)⟩

/-- C18: in a system reached from empty attachment lists, a successful `detach_chunk(c)` of
process `self` erases the first record for `c`: the previous list is `l1 ++ r :: l2` with `r`
the first record for `c`, the new list is `l1 ++ l2`, no record of the new list is for `c`,
and the attachment lists of the other processes are as before. -/
theorem detach_chunk_erases (w0 w : system) (h0 : ∀ p, (w0.procs p).attachs_ = [])
    (hr : reachable w0 w) (self c : Nat)
    (h : (detach_chunk w self (some c)).1 = true) :
    ((detach_chunk w self (some c)).2.procs self).attachs_ =
      (w.procs self).attachs_.eraseP (fun info => info.chunk_ == c) ∧
    (∃ l1 r l2, (w.procs self).attachs_ = l1 ++ r :: l2 ∧ r.chunk_ = c ∧
      (∀ x ∈ l1, x.chunk_ ≠ c) ∧
      ((detach_chunk w self (some c)).2.procs self).attachs_ = l1 ++ l2) ∧
    (∀ x ∈ ((detach_chunk w self (some c)).2.procs self).attachs_, x.chunk_ ≠ c) ∧
    ∀ q, q ≠ self →
      ((detach_chunk w self (some c)).2.procs q).attachs_ = (w.procs q).attachs_ := by
  have hd : distinct_chunks w :=
    reachable_distinct w0 w (fun q => by rw [h0 q]; exact List.nodup_nil) hr
  have hlist : ((detach_chunk w self (some c)).2.procs self).attachs_ =
      (w.procs self).attachs_.eraseP (fun info => info.chunk_ == c) := by
    rw [detach_chunk_attachs, if_pos rfl, some_chunk_beq]
  obtain ⟨r, hr1, hr2⟩ := detach_chunk_true_mem w self (some c) h
  have hrc : r.chunk_ = c := by simpa using hr2
  obtain ⟨a, l1, l2, hl1, ha, hsplit, herase⟩ :=
    List.exists_of_eraseP (p := fun info : flexible_mem_model_chunk_attach_info =>
      info.chunk_ == c) hr1 (by simp [hrc])
  have hzero : records_of (detach_chunk w self (some c)).2 self c = 0 := by
    rw [records_of_detach_chunk]
    have := records_of_le_one w hd self c
    omega
  refine ⟨hlist, ⟨l1, a, l2, hsplit, by simpa using ha, ?_, by rw [hlist, herase]⟩, ?_, ?_⟩
  · intro x hx; simpa using hl1 x hx
  · unfold records_of at hzero
    rw [List.countP_eq_zero] at hzero
    intro x hx; simpa using hzero x hx
  · intro q hq
    rw [detach_chunk_attachs, if_neg hq]

/-- C18, an instance: process 1 detaches the chunk at address 0 of `sample_shared`. -/
theorem detach_chunk_erases_witness :
    (∀ p, ((empty_system 12 4).procs p).attachs_ = []) ∧
    (detach_chunk sample_shared 1 (some 0)).1 = true ∧
    ((detach_chunk sample_shared 1 (some 0)).2.procs 1).attachs_ =
      (sample_shared.procs 1).attachs_.eraseP (fun info => info.chunk_ == 0) ∧
    (∀ x ∈ ((detach_chunk sample_shared 1 (some 0)).2.procs 1).attachs_, x.chunk_ ≠ 0) :=
  ⟨fun _ => rfl, by decide,
   (detach_chunk_erases (empty_system 12 4) sample_shared (fun _ => rfl)
     (reachable.step _ sample_K_second (op.attach_chunk 2 0)
       (reachable.step _ sample_K (op.create_chunk 1 none sample_info) reachable.init))
     1 0 (by decide)).1,
   (detach_chunk_erases (empty_system 12 4) sample_shared (fun _ => rfl)
     (reachable.step _ sample_K_second (op.attach_chunk 2 0)
       (reachable.step _ sample_K (op.create_chunk 1 none sample_info) reachable.init))
     1 0 (by decide)).2.2.1⟩

end eka2l1.mem.flexible

/-! ## Properties of the run-length coding -/

namespace eka2l1
open common

/-! ### Streams and buffers -/

/-- C19, the code at concrete inputs, units of one byte (`BIT = 8`), whatever the local
arrays held. The two bytes `65, 65` are compressed to the repeat record `2, 65`, and
`decompress_rle`, whose loop of line 154 runs while `count >= 0`, writes the unit three times:
the round trip gives `65, 65, 65`. The three bytes `65, 65, 66` are compressed to `3, 65`: the
scan of lines 59-61 stops at the end of the source without comparing the last unit, so the
`66` is counted into the run. -/
theorem rle_round_trip_differs :
    (∀ stale : stale_arrays,
      compress_rle 8 stale 10 (ro_stream.mk [65, 65] 0) (wo_stream.mk [] 16) =
        some (rle_status.returned true, ro_stream.mk [65, 65] 2, wo_stream.mk [2, 65] 16)) ∧
    (∀ stale : stale_arrays,
      decompress_rle 8 stale 10 (ro_stream.mk [2, 65] 0) (wo_stream.mk [] 16) =
        some (ro_stream.mk [2, 65] 2, wo_stream.mk [65, 65, 65] 16)) ∧
    [65, 65, 65] ≠ [65, 65] ∧
    (∀ stale : stale_arrays,
      compress_rle 8 stale 10 (ro_stream.mk [65, 65, 66] 0) (wo_stream.mk [] 16) =
        some (rle_status.returned true, ro_stream.mk [65, 65, 66] 3, wo_stream.mk [3, 65] 16)) ∧
    (∀ stale : stale_arrays,
      decompress_rle 8 stale 10 (ro_stream.mk [3, 65] 0) (wo_stream.mk [] 16) =
        some (ro_stream.mk [3, 65] 2, wo_stream.mk [65, 65, 65, 65] 16)) :=
  ⟨fun _ => rfl, fun _ => rfl, by decide, fun _ => rfl, fun _ => rfl⟩

/-! ### Termination of `compress_rle` and the assertion of line 69 -/

/-- C21, the code at a concrete input, units of one byte (`BIT = 8`), whatever the local
arrays held: the input is the repeat record `127, 65` and the destination has room for 5
bytes. Line 147 clamps `count` to `dest->left() / BYTE_COUNT = 5`, and the loop of line 154,
which runs while `count >= 0`, passes the unit to `dest->write` six times: 6 bytes for a room
of 5. With a room of 1 byte the record `1, 65` has 2 bytes written. -/
theorem decompress_rle_overruns :
    (wo_stream.mk [] 5).left = 5 ∧
    (∀ stale : stale_arrays,
      decompress_rle 8 stale 12 (ro_stream.mk [127, 65] 0) (wo_stream.mk [] 5) =
        some (ro_stream.mk [127, 65] 2, wo_stream.mk [65, 65, 65, 65, 65, 65] 5)) ∧
    ¬ ([65, 65, 65, 65, 65, 65].length ≤ (wo_stream.mk [] 5).left) ∧
    (∀ stale : stale_arrays,
      decompress_rle 8 stale 12 (ro_stream.mk [1, 65] 0) (wo_stream.mk [] 1) =
        some (ro_stream.mk [1, 65] 2, wo_stream.mk [65, 65] 1)) :=
  ⟨rfl, fun _ => rfl, by decide, fun _ => rfl⟩

/-- A truncated repeat record reads the unit from the storage of `comp` as it was found:
units of one byte, input `3, 3, 1` (the record `3 × 3` and a count byte `1` without its
unit). When the storage of `comp` still holds the unit 3 of the iteration before, the six
bytes written are all 3; when it holds 0, the last two are 0. -/
theorem decompress_rle_truncated_record :
    decompress_rle 8 { bytes := fun _ => [], temp_bytes := fun _ => [], comp := fun _ => [3] }
        12 (ro_stream.mk [3, 3, 1] 0) (wo_stream.mk [] 16) =
      some (ro_stream.mk [3, 3, 1] 3, wo_stream.mk [3, 3, 3, 3, 3, 3] 16) ∧
    decompress_rle 8 { bytes := fun _ => [], temp_bytes := fun _ => [], comp := fun _ => [0] }
        12 (ro_stream.mk [3, 3, 1] 0) (wo_stream.mk [] 16) =
      some (ro_stream.mk [3, 3, 1] 3, wo_stream.mk [3, 3, 3, 3, 0, 0] 16) := by
  decide

end eka2l1

/-! ## Properties of the HAL dispatch -/

namespace eka2l1.epoc

/-- C23: the free function `do_hal` looks up the HAL registered under the low 16 bits of
`cage`. (1) If none is registered it returns `error_not_found`, leaves the state alone and
calls no HAL function. (2) Otherwise it returns what `hal::do_hal(func, a1, a2, device)`
returns, with `device` the low 16 bits of `cage >> 16`. (3) `hal::do_hal` returns `-1` and
calls no HAL function when `func` has no registered function, and (4) otherwise calls the
function registered for `func`, once, with `a1`, `a2` and the device, and returns exactly its
result. -/
theorem do_hal_dispatch {σ : Type} (error_not_found : Int) (sys : eka2l1.system σ)
    (cage func : Nat) (a1 a2 : Option Nat) (st : σ) :
    (sys.get_hal (cage % 2 ^ 16) = none →
      do_hal error_not_found sys cage func a1 a2 st =
        { ret := error_not_found, state := st, invoked := [] }) ∧
    (∀ hal_com, sys.get_hal (cage % 2 ^ 16) = some hal_com →
      do_hal error_not_found sys cage func a1 a2 st =
        hal_com.do_hal func a1 a2 ((cage >>> 16) % 2 ^ 16) st) ∧
    (∀ (h : hal σ) (device_num : Nat), h.funcs func = none →
      h.do_hal func a1 a2 device_num st = { ret := -1, state := st, invoked := [] }) ∧
    (∀ (h : hal σ) (device_num : Nat) (f : hal_func σ), h.funcs func = some f →
      h.do_hal func a1 a2 device_num st =
        { ret := (f a1 a2 device_num st).1, state := (f a1 a2 device_num st).2,
          invoked := [{ func := func, a1 := a1, a2 := a2, device_num := device_num }] }) := by
  refine ⟨fun h => ?_, fun hal_com h => ?_, fun h device_num hf => ?_,
    fun h device_num f hf => ?_⟩
  · simp only [do_hal, h]
  · simp only [do_hal, h]
  · simp only [hal.do_hal, hf]
  · simp only [hal.do_hal, hf]

/-- C23, instances on `sample_hal_system` (a HAL under category 4 with the function 2):
category 5 is not registered; `cage = 0x00030004` reaches the HAL with device 3, where
function 2 is called and function 7 is not registered. -/
theorem do_hal_dispatch_witness :
    (do_hal (-77) sample_hal_system 0x00030005 2 none none 0).ret = -77 ∧
    (do_hal (-77) sample_hal_system 0x00030005 2 none none 0).invoked = [] ∧
    (do_hal (-77) sample_hal_system 0x00030004 2 none none 0).ret =
      (sample_hal.do_hal 2 none none 3 0).ret ∧
    (do_hal (-77) sample_hal_system 0x00030004 2 none none 0).ret = 43 ∧
    (do_hal (-77) sample_hal_system 0x00030004 2 none none 0).invoked =
      [{ func := 2, a1 := none, a2 := none, device_num := 3 }] ∧
    (do_hal (-77) sample_hal_system 0x00030004 7 none none 0).ret = -1 ∧
    (do_hal (-77) sample_hal_system 0x00030004 7 none none 0).invoked = [] :=
  ⟨congrArg hal_result.ret
     ((do_hal_dispatch (-77) sample_hal_system 0x00030005 2 none none 0).1 rfl),
   congrArg hal_result.invoked
     ((do_hal_dispatch (-77) sample_hal_system 0x00030005 2 none none 0).1 rfl),
   congrArg hal_result.ret
     ((do_hal_dispatch (-77) sample_hal_system 0x00030004 2 none none 0).2.1 sample_hal
       rfl),
   rfl, rfl,
   congrArg hal_result.ret
     ((do_hal_dispatch (-77) sample_hal_system 0x00030004 7 none none 0).2.2.1 sample_hal 3
       rfl),
   rfl⟩

end eka2l1.epoc

/-! ## Properties of the time conversion -/

namespace eka2l1.common

/-- C24, as the code has it: `convert_microsecs_epoch_to_1ad(micsecs)` is
`micsecs * microsecs_per_sec + ad_epoc_dist_microsecs` modulo `2 ^ 64`: the argument is scaled
by `microsecs_per_sec` and then the offset `ad_epoc_dist_microsecs` is added. The offset is
the one that `get_current_time_in_microseconds_since_1ad` adds to the current time in
microseconds: the conversion of `micsecs` is what that function gives for the time
`micsecs * microsecs_per_sec` microseconds, and that function is the conversion with scale 1.
The result is `micsecs + ad_epoc_dist_microsecs` modulo `2 ^ 64` exactly when scaling leaves
`micsecs` unchanged modulo `2 ^ 64`. -/
theorem convert_microsecs_epoch_to_1ad_scales (microsecs_per_sec ad_epoc_dist_microsecs : Nat)
    (micsecs : Nat) :
    convert_microsecs_epoch_to_1ad microsecs_per_sec ad_epoc_dist_microsecs micsecs =
      (micsecs * microsecs_per_sec + ad_epoc_dist_microsecs) % 2 ^ 64 ∧
    convert_microsecs_epoch_to_1ad microsecs_per_sec ad_epoc_dist_microsecs micsecs =
      get_current_time_in_microseconds_since_1ad ad_epoc_dist_microsecs
        ((micsecs * microsecs_per_sec : Nat) : Int) ∧
    get_current_time_in_microseconds_since_1ad ad_epoc_dist_microsecs (micsecs : Int) =
      convert_microsecs_epoch_to_1ad 1 ad_epoc_dist_microsecs micsecs ∧
    (convert_microsecs_epoch_to_1ad microsecs_per_sec ad_epoc_dist_microsecs micsecs =
        (micsecs + ad_epoc_dist_microsecs) % 2 ^ 64 ↔
      (micsecs * microsecs_per_sec) % 2 ^ 64 = micsecs % 2 ^ 64) := by
  refine ⟨rfl, ?_, ?_, ?_⟩
  · unfold get_current_time_in_microseconds_since_1ad convert_microsecs_epoch_to_1ad
    generalize micsecs * microsecs_per_sec = x
    omega
  · unfold get_current_time_in_microseconds_since_1ad convert_microsecs_epoch_to_1ad
    omega
  · unfold convert_microsecs_epoch_to_1ad
    constructor
    · intro h
      exact Nat.ModEq.add_right_cancel' ad_epoc_dist_microsecs h
    · intro h
      exact Nat.ModEq.add_right ad_epoc_dist_microsecs h

/-- C24 as stated fails: with `microsecs_per_sec = 1000000`, one microsecond after the
epoch is converted to `ad_epoc_dist_microsecs + 1000000`, not `ad_epoc_dist_microsecs + 1`. -/
theorem convert_microsecs_epoch_to_1ad_not_offset_only :
    convert_microsecs_epoch_to_1ad sample_microsecs_per_sec sample_ad_epoc_dist_microsecs 1 =
      62167132801000000 ∧
    (1 + sample_ad_epoc_dist_microsecs) % 2 ^ 64 = 62167132800000001 ∧
    convert_microsecs_epoch_to_1ad sample_microsecs_per_sec sample_ad_epoc_dist_microsecs 1 ≠
      (1 + sample_ad_epoc_dist_microsecs) % 2 ^ 64 ∧
    get_current_time_in_microseconds_since_1ad sample_ad_epoc_dist_microsecs 1 =
      62167132800000001 := by
  decide

end eka2l1.common
